import Mathlib

/-!
Verification of the SimpleFormBuilder calculation engine
(`src/simpleformbuilder/builder.py`, `utils.py`, `templates.py`).

The development is a shallow embedding of the Python module:

* Python `dict`s become association lists (`lookupA` / `updateA` mirror
  `d[k]` and `d[k] = v`).
* Numeric scalars (`int` / `float`) are modelled by exact rationals;
  `pint.Quantity` values by a magnitude paired with a `UnitObj`
  (a unit name, a dimension exponent vector and a scale factor to base
  units); `np.ndarray` by a list of rationals.
* Expression strings are parsed by sympy, an external collaborator; the
  embedding therefore carries, next to each raw expression string, the
  abstract syntax tree that `sympy.sympify` produces for it, and
  `sympy.lambdify`-compiled functions become evaluation of that tree.
  Free variables are resolved through an environment exactly the way
  `CalculationEngine.evaluate` resolves `args_names` (all arguments are
  looked up, in sorted order, before the compiled function runs).
* Exceptions become `Except` / error-sum results carrying the message
  strings the Python code builds (apostrophes written as `\x27`).

Every definition is translated from the source file; deliberate
simplifications (for corners no claim touches) are flagged in comments
at the definition they concern.
-/

set_option linter.unusedVariables false
set_option autoImplicit false

deriving instance DecidableEq for Except

namespace SFB

/-! ## Small string and association-list library -/

/-- Sublist-scan core of the substring test. -/
def containsList (pat : List Char) : List Char → Bool
  | [] => pat.isEmpty
  | c :: rest => pat.isPrefixOf (c :: rest) || containsList pat rest

/-- Substring test, the embedding of the Python `pat in s` operator. -/
def strContains (s pat : String) : Bool :=
  containsList pat.data s.data

/-- Association-list lookup: the embedding of `k in d` / `d[k]`. -/
def lookupA {α : Type} : List (String × α) → String → Option α
  | [], _ => none
  | (k, v) :: rest, k0 => if k = k0 then some v else lookupA rest k0

/-- Association-list update: the embedding of `d[k] = v` (replaces the
existing binding in place, else appends, as a Python dict does). -/
def updateA {α : Type} : List (String × α) → String → α → List (String × α)
  | [], k, v => [(k, v)]
  | (k1, v1) :: rest, k, v =>
      if k1 = k then (k1, v) :: rest else (k1, v1) :: updateA rest k v

/-! ## Units and values

`UnitObj` models a `pint` unit object: a printable name, a vector of
dimension exponents (length, mass, time — enough for every unit the
claims exercise) and a conversion factor to coherent base units. -/

structure UnitObj where
  uname : String
  dimL : Int
  dimM : Int
  dimT : Int
  scale : ℚ
deriving DecidableEq

/-- Dimension vector of a unit. -/
def UnitObj.dim (u : UnitObj) : Int × Int × Int := (u.dimL, u.dimM, u.dimT)

/-- Dimensionless test, as in `pint` (empty dimensionality). -/
def UnitObj.isDimensionless (u : UnitObj) : Bool :=
  u.dimL = 0 && u.dimM = 0 && u.dimT = 0

/-- Unit product (dimensions add, scales multiply), as `pint` forms it
during quantity multiplication. -/
def unitMul (u1 u2 : UnitObj) : UnitObj :=
  ⟨u1.uname ++ "*" ++ u2.uname, u1.dimL + u2.dimL, u1.dimM + u2.dimM,
   u1.dimT + u2.dimT, u1.scale * u2.scale⟩

/-- Unit quotient, as `pint` forms it during quantity division. -/
def unitDiv (u1 u2 : UnitObj) : UnitObj :=
  ⟨u1.uname ++ "/" ++ u2.uname, u1.dimL - u2.dimL, u1.dimM - u2.dimM,
   u1.dimT - u2.dimT, u1.scale / u2.scale⟩

/-- Runtime values flowing through the engine: the Python value universe
the module manipulates.  `vnum` covers `int` and `float` scalars (exact
rationals stand in for both; no claim separates them), `vquant` a scalar
`pint.Quantity`, `varr` a numeric `np.ndarray`, `vbarr` a boolean
`np.ndarray`, `vbool` a Python `bool`.  `vstr` and `vnone` are carried
as representatives of values outside the accepted parameter types. -/
inductive PyObj where
  | vnum : ℚ → PyObj
  | vquant : ℚ → UnitObj → PyObj
  | varr : List ℚ → PyObj
  | vbarr : List Bool → PyObj
  | vbool : Bool → PyObj
  | vstr : String → PyObj
  | vnone : PyObj
deriving DecidableEq

/-- Python type name of a value, used in error messages. -/
def pyTypeName : PyObj → String
  | .vnum _ => "int"
  | .vquant _ _ => "pint.Quantity"
  | .varr _ => "numpy.ndarray"
  | .vbarr _ => "numpy.ndarray"
  | .vbool _ => "bool"
  | .vstr _ => "str"
  | .vnone => "NoneType"

/-- Runtime failures raised while evaluating a compiled expression,
before `CalculationEngine.evaluate` classifies them.  `zeroDiv` is
`ZeroDivisionError`, `dimErr u1 u2` is `pint.DimensionalityError` with
the two unit names, the rest are `KeyError` / `ValueError` /
`AttributeError` / `TypeError` with their message. -/
inductive EvalErr where
  | zeroDiv : EvalErr
  | dimErr : String → String → EvalErr
  | keyErr : String → EvalErr
  | valErr : String → EvalErr
  | attrErr : String → EvalErr
  | typeErr : String → EvalErr
deriving DecidableEq

/-- The message pint builds for a `DimensionalityError` (we keep the two
unit names; the real text also prints the dimensionalities, which
likewise never mention any calculation step). -/
def pintMsg (u1 u2 : String) : String :=
  "Cannot convert from \x27" ++ u1 ++ "\x27 to \x27" ++ u2 ++ "\x27"

/-- Rendering of a caught exception by `f"{e}"`, as the generic handlers
in `evaluate` interpolate it.  (For a `KeyError` Python would add `repr`
quotes around the message; the quotes carry no information any claim
depends on.) -/
def renderEvalErr : EvalErr → String
  | .zeroDiv => "division by zero"
  | .dimErr u1 u2 => pintMsg u1 u2
  | .keyErr m => m
  | .valErr m => m
  | .attrErr m => m
  | .typeErr m => m

/-! ### Arithmetic on values

Each operation mirrors the behaviour of Python / numpy / pint for the
shapes of operand the module can produce.  Array-with-unit values
(`pint` quantities whose magnitude is an array) are outside the model:
the operations answer `typeErr` there, and no claim exercises them.
Division of an array by an array containing a zero is modelled as
`ZeroDivisionError` (numpy would emit `inf` plus a warning; no claim
touches it). -/

def qAdd : PyObj → PyObj → Except EvalErr PyObj
  | .vnum a, .vnum b => .ok (.vnum (a + b))
  | .vquant m1 u1, .vquant m2 u2 =>
      if u1.dim = u2.dim then .ok (.vquant (m1 + m2 * u2.scale / u1.scale) u1)
      else .error (.dimErr u2.uname u1.uname)
  | .vnum a, .vquant m u =>
      if u.isDimensionless then .ok (.vquant (m + a / u.scale) u)
      else .error (.dimErr "dimensionless" u.uname)
  | .vquant m u, .vnum a =>
      if u.isDimensionless then .ok (.vquant (m + a / u.scale) u)
      else .error (.dimErr "dimensionless" u.uname)
  | .varr xs, .varr ys =>
      if xs.length = ys.length then .ok (.varr (List.zipWith (· + ·) xs ys))
      else .error (.typeErr "operands could not be broadcast together")
  | .varr xs, .vnum a => .ok (.varr (xs.map (· + a)))
  | .vnum a, .varr xs => .ok (.varr (xs.map (a + ·)))
  | _, _ => .error (.typeErr "unsupported operand type(s) for +")

def qSub : PyObj → PyObj → Except EvalErr PyObj
  | .vnum a, .vnum b => .ok (.vnum (a - b))
  | .vquant m1 u1, .vquant m2 u2 =>
      if u1.dim = u2.dim then .ok (.vquant (m1 - m2 * u2.scale / u1.scale) u1)
      else .error (.dimErr u2.uname u1.uname)
  | .vnum a, .vquant m u =>
      if u.isDimensionless then .ok (.vquant (a / u.scale - m) u)
      else .error (.dimErr "dimensionless" u.uname)
  | .vquant m u, .vnum a =>
      if u.isDimensionless then .ok (.vquant (m - a / u.scale) u)
      else .error (.dimErr "dimensionless" u.uname)
  | .varr xs, .varr ys =>
      if xs.length = ys.length then .ok (.varr (List.zipWith (· - ·) xs ys))
      else .error (.typeErr "operands could not be broadcast together")
  | .varr xs, .vnum a => .ok (.varr (xs.map (· - a)))
  | .vnum a, .varr xs => .ok (.varr (xs.map (a - ·)))
  | _, _ => .error (.typeErr "unsupported operand type(s) for -")

def qMul : PyObj → PyObj → Except EvalErr PyObj
  | .vnum a, .vnum b => .ok (.vnum (a * b))
  | .vquant m1 u1, .vquant m2 u2 => .ok (.vquant (m1 * m2) (unitMul u1 u2))
  | .vnum a, .vquant m u => .ok (.vquant (a * m) u)
  | .vquant m u, .vnum a => .ok (.vquant (m * a) u)
  | .varr xs, .varr ys =>
      if xs.length = ys.length then .ok (.varr (List.zipWith (· * ·) xs ys))
      else .error (.typeErr "operands could not be broadcast together")
  | .varr xs, .vnum a => .ok (.varr (xs.map (· * a)))
  | .vnum a, .varr xs => .ok (.varr (xs.map (a * ·)))
  | _, _ => .error (.typeErr "unsupported operand type(s) for *")

def qDiv : PyObj → PyObj → Except EvalErr PyObj
  | _, .vnum 0 => .error .zeroDiv
  | _, .vquant 0 _ => .error .zeroDiv
  | .vnum a, .vnum b => .ok (.vnum (a / b))
  | .vquant m1 u1, .vquant m2 u2 => .ok (.vquant (m1 / m2) (unitDiv u1 u2))
  | .vnum a, .vquant m u =>
      .ok (.vquant (a / m) (unitDiv ⟨"dimensionless", 0, 0, 0, 1⟩ u))
  | .vquant m u, .vnum a => .ok (.vquant (m / a) u)
  | .varr xs, .varr ys =>
      if xs.length = ys.length then
        if ys.any (· = 0) then .error .zeroDiv
        else .ok (.varr (List.zipWith (· / ·) xs ys))
      else .error (.typeErr "operands could not be broadcast together")
  | .varr xs, .vnum a => .ok (.varr (xs.map (· / a)))
  | .vnum a, .varr xs =>
      if xs.any (· = 0) then .error .zeroDiv else .ok (.varr (xs.map (a / ·)))
  | _, _ => .error (.typeErr "unsupported operand type(s) for /")

/-- Comparison core: compares two scalars after unit alignment and
applies `cmp`; arrays compare elementwise producing a boolean array
(numpy broadcasting). -/
def qCompare (cmp : ℚ → ℚ → Bool) : PyObj → PyObj → Except EvalErr PyObj
  | .vnum a, .vnum b => .ok (.vbool (cmp a b))
  | .vquant m1 u1, .vquant m2 u2 =>
      if u1.dim = u2.dim then .ok (.vbool (cmp m1 (m2 * u2.scale / u1.scale)))
      else .error (.dimErr u2.uname u1.uname)
  | .vnum a, .vquant m u =>
      if u.isDimensionless then .ok (.vbool (cmp (a / u.scale) m))
      else .error (.dimErr "dimensionless" u.uname)
  | .vquant m u, .vnum a =>
      if u.isDimensionless then .ok (.vbool (cmp m (a / u.scale)))
      else .error (.dimErr "dimensionless" u.uname)
  | .varr xs, .varr ys =>
      if xs.length = ys.length then .ok (.vbarr (List.zipWith cmp xs ys))
      else .error (.typeErr "operands could not be broadcast together")
  | .varr xs, .vnum a => .ok (.vbarr (xs.map (fun x => cmp x a)))
  | .vnum a, .varr xs => .ok (.vbarr (xs.map (fun x => cmp a x)))
  | _, _ => .error (.typeErr "unsupported operand type(s) for comparison")

/-! ## Expressions

`Expr` is the abstract syntax tree `sympy.sympify` yields for the
restricted expression grammar of the module (arithmetic operators and
comparisons over free symbols; `UNIT_x` placeholders produced by the
`u.x` rewrite appear as ordinary variables, exactly as the source
arranges by registering them as sympy symbols). -/

inductive Expr where
  | const : ℚ → Expr
  | var : String → Expr
  | add : Expr → Expr → Expr
  | sub : Expr → Expr → Expr
  | mul : Expr → Expr → Expr
  | div : Expr → Expr → Expr
  | neg : Expr → Expr
  | lt : Expr → Expr → Expr
  | le : Expr → Expr → Expr
  | gt : Expr → Expr → Expr
  | ge : Expr → Expr → Expr
deriving DecidableEq

namespace Expr

/-- Free symbols of an expression (with duplicates; `sympy`'s
`free_symbols` is the set of these). -/
def freeVarsList : Expr → List String
  | const _ => []
  | var v => [v]
  | add a b => freeVarsList a ++ freeVarsList b
  | sub a b => freeVarsList a ++ freeVarsList b
  | mul a b => freeVarsList a ++ freeVarsList b
  | div a b => freeVarsList a ++ freeVarsList b
  | neg a => freeVarsList a
  | lt a b => freeVarsList a ++ freeVarsList b
  | le a b => freeVarsList a ++ freeVarsList b
  | gt a b => freeVarsList a ++ freeVarsList b
  | ge a b => freeVarsList a ++ freeVarsList b

/-- Simultaneous substitution of variables (the `sympy` `subs` with a
dict: replacement expressions are not re-visited in the same round). -/
def substVars (sigma : String → Option Expr) : Expr → Expr
  | const q => const q
  | var v => match sigma v with
             | some e => e
             | none => var v
  | add a b => add (substVars sigma a) (substVars sigma b)
  | sub a b => sub (substVars sigma a) (substVars sigma b)
  | mul a b => mul (substVars sigma a) (substVars sigma b)
  | div a b => div (substVars sigma a) (substVars sigma b)
  | neg a => neg (substVars sigma a)
  | lt a b => lt (substVars sigma a) (substVars sigma b)
  | le a b => le (substVars sigma a) (substVars sigma b)
  | gt a b => gt (substVars sigma a) (substVars sigma b)
  | ge a b => ge (substVars sigma a) (substVars sigma b)

end Expr

/-- Insertion into an ascending list of strings. -/
def insertSorted (x : String) : List String → List String
  | [] => [x]
  | y :: ys => if x ≤ y then x :: y :: ys else y :: insertSorted x ys

/-- Insertion sort on strings: the deterministic
`sorted(..., key=str)` ordering of `_compile_equation`. -/
def sortStrings : List String → List String
  | [] => []
  | x :: xs => insertSorted x (sortStrings xs)

/-- The sorted, duplicate-free argument name list `_compile_equation`
returns next to the compiled function
(`sorted(list(sym_expr.free_symbols), key=str)`). -/
def argsNames (e : Expr) : List String :=
  sortStrings e.freeVarsList.dedup

/-! ## Running a compiled expression

`compiled_func(*args)` becomes evaluation of the tree over the resolved
argument list.  As in the source, all arguments are resolved first (in
the sorted `args_names` order, so the first unresolvable name determines
the error) and only then does the numeric function run. -/

/-- Resolve every argument name through `get1`, left to right,
propagating the first failure — the list comprehension
`[get_arg_value(arg) for arg in args_names]`. -/
def resolveArgs (get1 : String → Except EvalErr PyObj) :
    List String → Except EvalErr (List (String × PyObj))
  | [] => .ok []
  | a :: rest => do
      let v ← get1 a
      let r ← resolveArgs get1 rest
      .ok ((a, v) :: r)

/-- Evaluate the tree over an environment. -/
def evalExpr (env : String → Except EvalErr PyObj) : Expr → Except EvalErr PyObj
  | .const q => .ok (.vnum q)
  | .var v => env v
  | .add a b => do qAdd (← evalExpr env a) (← evalExpr env b)
  | .sub a b => do qSub (← evalExpr env a) (← evalExpr env b)
  | .mul a b => do qMul (← evalExpr env a) (← evalExpr env b)
  | .div a b => do qDiv (← evalExpr env a) (← evalExpr env b)
  | .neg a => do qSub (.vnum 0) (← evalExpr env a)
  | .lt a b => do qCompare (fun x y => decide (x < y)) (← evalExpr env a) (← evalExpr env b)
  | .le a b => do qCompare (fun x y => decide (x ≤ y)) (← evalExpr env a) (← evalExpr env b)
  | .gt a b => do qCompare (fun x y => decide (y < x)) (← evalExpr env a) (← evalExpr env b)
  | .ge a b => do qCompare (fun x y => decide (y ≤ x)) (← evalExpr env a) (← evalExpr env b)

/-- Invoke the compiled artifact on resolved positional arguments.  The
fallback `keyErr` branch mirrors a lookup of a symbol that was not among
`args_names`; it is unreachable because the arguments cover exactly the
free symbols. -/
def runCompiled (ce : Expr) (resolved : List (String × PyObj)) : Except EvalErr PyObj :=
  evalExpr (fun v =>
    match lookupA resolved v with
    | some x => .ok x
    | none => .error (.keyErr ("Variable \x27" ++ v ++ "\x27 not found."))) ce

/-! ## Safety Filter (`utils.security_check`, `_validate_expression`)

Strings are modelled over the ASCII alphabet (every identifier, keyword
and example in the repository is ASCII).  `isIdentStr` is Python's
`str.isidentifier` restricted to ASCII: it does NOT exclude reserved
words — `"import".isidentifier()` is `True`. -/

def isWordChar (c : Char) : Bool := c.isAlphanum || c = '_'

def isIdentStart (c : Char) : Bool := c.isAlpha || c = '_'

/-- Python `str.isidentifier` (ASCII fragment). -/
def isIdentStr (s : String) : Bool :=
  match s.data with
  | [] => false
  | c :: rest => isIdentStart c && rest.all isWordChar

/-- The deny list of `security_check`. -/
def forbiddenWords : List String :=
  ["import", "lambda", "open", "eval", "exec", "compile", "input", "sys", "os"]

/-- No-word-char-before test for the char preceding a candidate match
(the left `\b` of the regex). -/
def boundaryBefore : Option Char → Bool
  | none => true
  | some c => !isWordChar c

/-- No-word-char-after test for the remainder following a candidate
match (the right `\b` of the regex). -/
def boundaryAfter : List Char → Bool
  | [] => true
  | c :: _ => !isWordChar c

/-- Scan for a whole-word occurrence of `w`; `prev` is the character
immediately before the current position.  This is the semantics of
`re.search(r"\b(w)\b", expr)` for a word `w` made of word characters. -/
def wwScan (w : List Char) : Option Char → List Char → Bool
  | _, [] => false
  | prev, c :: rest =>
      (w.isPrefixOf (c :: rest) && boundaryBefore prev
        && boundaryAfter (List.drop w.length (c :: rest)))
      || wwScan w (some c) rest

/-- Whole-word containment of `w` in `expr`, the
`re.search(r"\b(...)\b", expr)` test for a single alternative. -/
def containsWholeWord (expr w : String) : Bool :=
  wwScan w.data none expr.data

/-- Spec-side reading of a whole-word occurrence, quoted from the Safety
Filter contract: the expression "contains, as a whole-word token" the
word — an occurrence whose neighbouring characters (if any) are not word
characters. -/
def WholeWordOccurs (w expr : String) : Prop :=
  ∃ pre post : List Char,
    expr.data = pre ++ w.data ++ post ∧
    boundaryBefore pre.getLast? = true ∧
    boundaryAfter post = true

/-- The character immediately preceding a match that sits after `pre`,
when `prev` precedes the whole scanned list. -/
def lastCtx (prev : Option Char) (pre : List Char) : Option Char :=
  match pre.getLast? with
  | some c => some c
  | none => prev

/-- Spec-side dunder test: the expression contains the literal
two-character sequence denoting dunder access. -/
def DunderOccurs (expr : String) : Prop :=
  "__".data <:+: expr.data

/-- `utils.security_check`: name must be an identifier, then the
expression must be free of `__` and of whole-word deny-list hits, in
that order. -/
def security_check (name expr : String) : Except String Unit :=
  if !isIdentStr name then
    .error ("Equation name \x27" ++ name ++ "\x27 must be a valid Python identifier.")
  else if strContains expr "__" then
    .error ("Expression \x27" ++ expr ++ "\x27 contains forbidden substring \x27__\x27.")
  else if forbiddenWords.any (fun w => containsWholeWord expr w) then
    .error ("Expression \x27" ++ expr ++ "\x27 contains forbidden keywords.")
  else .ok ()

/-- `CalculationGraph._validate_expression`: own identifier check, then
`security_check` with its message re-wrapped. -/
def validate_expression (name expr : String) : Except String Unit :=
  if !isIdentStr name then
    .error ("Name \x27" ++ name ++ "\x27 must be a valid Python identifier.")
  else
    match security_check name expr with
    | .error e => .error ("Invalid expression for \x27" ++ name ++ "\x27: " ++ e)
    | .ok _ => .ok ()

/-! ## Calculation graph -/

inductive StepType where
  | param : StepType
  | eq : StepType
  | check : StepType
deriving DecidableEq

/-- One step dict of `CalculationGraph.steps`.  Fields unused by a given
step type keep their creation defaults, exactly as the corresponding
Python dict simply lacks the key (`step.get(...)` then yields `None`,
here `none`).  `exprStr` is the raw expression string; `expr` is the
tree `sympy.sympify` produces for it (the parser being the out-of-scope
symbolic library, the two travel together). -/
structure Step where
  type : StepType
  name : String
  symbol : String
  value : Option PyObj
  exprStr : String
  expr : Expr
  unit : Option UnitObj
  desc : String
  hidden : Bool
  fmt : Option Nat
  compiled : Option Expr
  result : Option PyObj
deriving DecidableEq

/-- `CalculationGraph`: parameter symbol table, display-symbol table and
ordered step list. -/
structure Graph where
  params : List (String × PyObj)
  symbols : List (String × String)
  steps : List Step
deriving DecidableEq

def emptyGraph : Graph := ⟨[], [], []⟩

/-- Errors of `add_param`: `ValueError` for a bad name, `TypeError` for
a bad value type. -/
inductive AddErr where
  | valueError : String → AddErr
  | typeError : String → AddErr
deriving DecidableEq

/-- The `isinstance(value, (int, float, pint.Quantity, np.ndarray))`
test.  A Python `bool` is an `int` and a boolean ndarray is an ndarray,
so both pass. -/
def isAcceptedParamType : PyObj → Bool
  | .vnum _ => true
  | .vquant _ _ => true
  | .varr _ => true
  | .vbarr _ => true
  | .vbool _ => true
  | .vstr _ => false
  | .vnone => false

/-- `CalculationGraph.add_param`.  Returns the (possibly unchanged)
graph plus the raised error, mirroring that a Python exception leaves
the object unmutated (both checks precede any assignment). -/
def add_param (g : Graph) (name symbol : String) (value : PyObj)
    (desc : String) (hidden : Bool) (fmt : Option Nat) : Graph × Option AddErr :=
  if !isIdentStr name then
    (g, some (.valueError ("Parameter name \x27" ++ name ++ "\x27 must be a valid Python identifier.")))
  else if !isAcceptedParamType value then
    (g, some (.typeError ("Value for \x27" ++ name ++ "\x27 must be an int, float, pint.Quantity, or np.ndarray. Got " ++ pyTypeName value ++ ".")))
  else
    ({ params := updateA g.params name value,
       symbols := updateA g.symbols name symbol,
       steps := g.steps ++ [{ type := .param, name := name, symbol := symbol,
                              value := some value, exprStr := "", expr := .const 0,
                              unit := none, desc := desc, hidden := hidden,
                              fmt := fmt, compiled := none, result := none }] },
     none)

/-- `CalculationGraph.add_equation`.  `exprStr` is the source string the
validator sees; `expr` its sympy parse. -/
def add_equation (g : Graph) (name symbol exprStr : String) (expr : Expr)
    (unit : Option UnitObj) (desc : String) (hidden : Bool) (fmt : Option Nat) :
    Graph × Option String :=
  match validate_expression name exprStr with
  | .error e => (g, some e)
  | .ok _ =>
      ({ params := g.params,
         symbols := updateA g.symbols name symbol,
         steps := g.steps ++ [{ type := .eq, name := name, symbol := symbol,
                                value := none, exprStr := exprStr, expr := expr,
                                unit := unit, desc := desc, hidden := hidden,
                                fmt := fmt, compiled := none, result := none }] },
       none)

/-- `CalculationGraph.add_check` (no symbols entry is written). -/
def add_check (g : Graph) (exprStr : String) (expr : Expr) (desc : String)
    (name : String) (fmt : Option Nat) : Graph × Option String :=
  match validate_expression name exprStr with
  | .error e => (g, some e)
  | .ok _ =>
      ({ params := g.params,
         symbols := g.symbols,
         steps := g.steps ++ [{ type := .check, name := name, symbol := "",
                                value := none, exprStr := exprStr, expr := expr,
                                unit := none, desc := desc, hidden := false,
                                fmt := fmt, compiled := none, result := none }] },
       none)

/-! ## Calculation engine (`CalculationEngine.evaluate`) -/

/-- A unit registry: the fragment of `pint.UnitRegistry` the engine
consults when an expression references `u.<name>`. -/
def Reg : Type := List (String × UnitObj)

/-- Exceptions as `evaluate` raises them: `ZeroDivisionError` with the
step-naming message, re-raised `pint.DimensionalityError`, and
`RuntimeError` wrapping everything else. -/
inductive RaisedErr where
  | zeroDivisionError : String → RaisedErr
  | dimensionalityError : String → RaisedErr
  | runtimeError : String → RaisedErr
deriving DecidableEq

/-- The `get_arg_value` helper of `evaluate`: `UNIT_x` resolves through
the registry, anything else through `graph.params`. -/
def getArgValue (reg : Reg) (params : List (String × PyObj)) (argName : String) :
    Except EvalErr PyObj :=
  if argName.startsWith "UNIT_" then
    match lookupA reg (argName.drop 5) with
    | some u => .ok (.vquant 1 u)
    | none => .error (.valErr ("Unknown unit \x27" ++ argName.drop 5 ++ "\x27 needed for calculation."))
  else
    match lookupA params argName with
    | some v => .ok v
    | none => .error (.keyErr ("Variable \x27" ++ argName ++ "\x27 not found."))

/-- The compiled artifact of a step: the cache if filled, else the
compilation of the expression (which, parsing being external, is the
stored tree itself). -/
def ceOf (s : Step) : Expr := s.compiled.getD s.expr

/-- `_evaluate_raw_expression` minus the cache write (the caller
records the cache): resolve every `args_names` entry, then run the
compiled function. -/
def evaluateRawExpression (reg : Reg) (params : List (String × PyObj)) (ce : Expr) :
    Except EvalErr PyObj := do
  let resolved ← resolveArgs (getArgValue reg params) (argsNames ce)
  runCompiled ce resolved

/-- Unit post-processing of an equation result inside `evaluate`:
convert a quantity to the target unit, or wrap a bare number with it
(`self.ureg.Quantity(result, step["unit"])`).  A `bool` wraps as its
numeric value; array magnitudes with units are outside the model. -/
def applyTargetUnit (raw : PyObj) : Option UnitObj → Except EvalErr PyObj
  | none => .ok raw
  | some t =>
      match raw with
      | .vquant m u =>
          if u.dim = t.dim then .ok (.vquant (m * u.scale / t.scale) t)
          else .error (.dimErr u.uname t.uname)
      | .vnum a => .ok (.vquant a t)
      | .vbool b => .ok (.vquant (if b then 1 else 0) t)
      | other => .error (.typeErr ("cannot wrap " ++ pyTypeName other ++ " as Quantity"))

/-- Classification of an equation failure by the three `except` arms of
`evaluate` (`ZeroDivisionError`, then `pint.DimensionalityError`
re-raised bare, then the generic wrap). -/
def eqRaise (name exprStr : String) : EvalErr → RaisedErr
  | .zeroDiv =>
      .zeroDivisionError ("Division by zero in equation \x27" ++ name ++ "\x27: " ++ exprStr)
  | .dimErr u1 u2 => .dimensionalityError (pintMsg u1 u2)
  | e => .runtimeError ("Error evaluating equation \x27" ++ name ++ "\x27: " ++ renderEvalErr e)

/-- The single `except Exception` arm of the check branch. -/
def checkRaise (desc : String) (e : EvalErr) : RaisedErr :=
  .runtimeError ("Error evaluating check \x27" ++ desc ++ "\x27: " ++ renderEvalErr e)

/-- `bool(result)` with the ndarray special case
(`bool(result.all())` for arrays).  Total, as in Python for every value
the engine can produce. -/
def coerceCheckBool : PyObj → Bool
  | .vbool b => b
  | .vnum q => decide (q ≠ 0)
  | .vquant m _ => decide (m ≠ 0)
  | .varr l => l.all (fun q => decide (q ≠ 0))
  | .vbarr l => l.all id
  | .vstr s => decide (s ≠ "")
  | .vnone => false

/-- One equation step of the `evaluate` loop.  On failure the params are
untouched and the step keeps only its freshly written compilation cache
(set by `_evaluate_raw_expression` before the failure). -/
def evalStepEq (reg : Reg) (s : Step) (ps : List (String × PyObj)) :
    Step × List (String × PyObj) × Option RaisedErr :=
  match evaluateRawExpression reg ps (ceOf s) with
  | .error e => ({ s with compiled := some (ceOf s) }, ps, some (eqRaise s.name s.exprStr e))
  | .ok raw =>
      match applyTargetUnit raw s.unit with
      | .error e => ({ s with compiled := some (ceOf s) }, ps, some (eqRaise s.name s.exprStr e))
      | .ok v => ({ s with compiled := some (ceOf s), result := some v },
                  updateA ps s.name v, none)

/-- One check step of the `evaluate` loop. -/
def evalStepCheck (reg : Reg) (s : Step) (ps : List (String × PyObj)) :
    Step × List (String × PyObj) × Option RaisedErr :=
  match evaluateRawExpression reg ps (ceOf s) with
  | .error e => ({ s with compiled := some (ceOf s) }, ps, some (checkRaise s.desc e))
  | .ok raw =>
      ({ s with compiled := some (ceOf s), result := some (.vbool (coerceCheckBool raw)) },
       ps, none)

/-- Dispatch of the `evaluate` loop body on the step type
(parameters are skipped). -/
def evalStep (reg : Reg) (s : Step) (ps : List (String × PyObj)) :
    Step × List (String × PyObj) × Option RaisedErr :=
  match s.type with
  | .param => (s, ps, none)
  | .eq => evalStepEq reg s ps
  | .check => evalStepCheck reg s ps

/-- The `for step in graph.steps` loop: steps run in declaration order,
the first failure aborts the pass; already-performed mutations (updated
steps, updated symbol table) survive, later steps stay untouched. -/
def evalSteps (reg : Reg) : List Step → List (String × PyObj) →
    List Step × List (String × PyObj) × Option RaisedErr
  | [], ps => ([], ps, none)
  | s :: rest, ps =>
      match evalStep reg s ps with
      | (s1, ps1, none) =>
          match evalSteps reg rest ps1 with
          | (rest1, ps2, oe) => (s1 :: rest1, ps2, oe)
      | (s1, ps1, some e) => (s1 :: rest, ps1, some e)

/-- `CalculationEngine.evaluate` over a whole graph. -/
def evaluate (reg : Reg) (g : Graph) : Graph × Option RaisedErr :=
  match evalSteps reg g.steps g.params with
  | (steps1, ps1, oe) => ({ g with steps := steps1, params := ps1 }, oe)

/-! ## Dependency-expansion compiler and `lambdify_equation` -/

/-- The first step carrying a given name, any type:
`next((s for s in graph.steps if s.get("name") == sym_str), None)`. -/
def findStepByName (steps : List Step) (n : String) : Option Step :=
  steps.find? (fun s => s.name == n)

/-- Whether a free symbol resolves to an Equation step (and hence gets
substituted during expansion). -/
def isEqSymbol (steps : List Step) (v : String) : Bool :=
  match findStepByName steps v with
  | some s => s.type == .eq
  | none => false

/-- One simultaneous substitution round of the expansion loop: every
free symbol naming an Equation step is replaced by that step's parsed
expression. -/
def expandRound (steps : List Step) (e : Expr) : Expr :=
  e.substVars (fun v =>
    match findStepByName steps v with
    | some s => if s.type = .eq then some s.expr else none
    | none => none)

/-- The bounded `while current_depth < max_depth` loop.  Fuel counts the
remaining rounds out of `max_depth = 20`; when it reaches zero the
source raises `RecursionError` without looking at the expression again
(so a chain needing exactly 20 rounds also fails). -/
def expandFuel (steps : List Step) (name : String) : Nat → Expr → Except String Expr
  | 0, _ =>
      .error ("Max recursion depth reached while expanding equation \x27"
        ++ name ++ "\x27. Possible cycle.")
  | fuel + 1, e =>
      if e.freeVarsList.any (isEqSymbol steps) then
        expandFuel steps name fuel (expandRound steps e)
      else .ok e

/-- `CalculationEngine._compile_equation`.  Parsing is external, so the
non-expanding compilation is the tree itself with its sorted free
symbols; with `expand := true` the dependency-expansion loop runs first.
Any inner failure is wrapped into the `ValueError` of the enclosing
`except` clause. -/
def compile_equation (name exprStr : String) (e : Expr) (steps : List Step)
    (expand : Bool) : Except String (Expr × List String) :=
  if expand then
    match expandFuel steps name 20 e with
    | .error inner =>
        .error ("Invalid or unsafe expression \x27" ++ exprStr ++ "\x27 for \x27"
          ++ name ++ "\x27: " ++ inner)
    | .ok e2 => .ok (e2, argsNames e2)
  else .ok (e, argsNames e)

/-- Construction-time failures of `lambdify_equation`: the `KeyError`
when the equation is missing, or the `ValueError` out of
`_compile_equation`. -/
inductive LamErr where
  | notFound : String → LamErr
  | invalidExpr : String → LamErr
deriving DecidableEq

/-- Resolution of one wrapper argument from the bulk input `df` (a
mapping of scalars here), the graph parameters, or the unit registry;
includes the unit-injection rule for bare bulk values whose parameter
carries a unit.  (Bulk columns that are arrays needing unit injection
would become array quantities, which stay outside the model.) -/
def wrapperArg (reg : Reg) (g : Graph) (name : String)
    (df : List (String × PyObj)) (argName : String) : Except EvalErr PyObj :=
  if argName.startsWith "UNIT_" then
    match lookupA reg (argName.drop 5) with
    | some u => .ok (.vquant 1 u)
    | none => .error (.valErr ("Unknown unit \x27" ++ argName.drop 5 ++ "\x27 in equation."))
  else
    match lookupA df argName with
    | some val =>
        match lookupA g.params argName with
        | some (.vquant _ pu) =>
            match val with
            | .vquant m u => .ok (.vquant m u)
            | .vnum a => .ok (.vquant a pu)
            | other => .error (.typeErr ("cannot attach unit to " ++ pyTypeName other))
        | _ => .ok val
    | none =>
        match lookupA g.params argName with
        | some v => .ok v
        | none =>
            .error (.keyErr ("Variable \x27" ++ argName ++ "\x27 required for equation \x27"
              ++ name ++ "\x27 not found in DataFrame or Builder parameters."))

/-- Unit post-processing of the wrapper result.  With a target unit,
only quantity results are converted (bare results are deliberately left
alone, per the source comment).  Without one, the source evaluates
`res.dimensionless`, an attribute only `pint.Quantity` has: every other
result type raises `AttributeError`. -/
def lamPostprocess (res : PyObj) : Option UnitObj → Except EvalErr PyObj
  | some t =>
      match res with
      | .vquant m u =>
          if u.dim = t.dim then .ok (.vquant (m * u.scale / t.scale) t)
          else .error (.dimErr u.uname t.uname)
      | other => .ok other
  | none =>
      match res with
      | .vquant m u =>
          if u.isDimensionless then .ok (.vnum m) else .ok (.vquant m u)
      | other =>
          .error (.attrErr ("\x27" ++ pyTypeName other
            ++ "\x27 object has no attribute \x27dimensionless\x27"))

/-- `CalculationEngine.lambdify_equation`: find the equation step,
compile with dependency expansion (construction time), and return the
wrapper closure. -/
def lambdify_equation (reg : Reg) (g : Graph) (name : String) :
    Except LamErr (List (String × PyObj) → Except EvalErr PyObj) :=
  match g.steps.find? (fun s => s.type == .eq && s.name == name) with
  | none => .error (.notFound ("Equation \x27" ++ name ++ "\x27 not found."))
  | some eqStep =>
      match compile_equation name eqStep.exprStr eqStep.expr g.steps true with
      | .error m => .error (.invalidExpr m)
      | .ok (ce, args) =>
          .ok (fun df => do
            let resolved ← resolveArgs (wrapperArg reg g name df) args
            let res ← runCompiled ce resolved
            lamPostprocess res eqStep.unit)

/-- Combined outcome of constructing the lambdified function and calling
it once, keeping construction-time and call-time failures apart. -/
inductive BulkOutcome where
  | constructionError : LamErr → BulkOutcome
  | callError : EvalErr → BulkOutcome
  | value : PyObj → BulkOutcome
deriving DecidableEq

def lambdifyApply (reg : Reg) (g : Graph) (name : String)
    (df : List (String × PyObj)) : BulkOutcome :=
  match lambdify_equation reg g name with
  | .error e => .constructionError e
  | .ok f =>
      match f df with
      | .error e => .callError e
      | .ok v => .value v

/-! ## Report formatter (`LaTeXFormatter`)

The formatter is rendered against the default invocation the implicit
claim exercises: the `"standard"` template of `LaTeXTemplateLibrary`
(all step kinds in `align*`), no row-template overrides, no environment
override.  A format spec is modelled as a decimal-place count — the
shape (`".2f"`-like) every spec string in the repository has; the
typeset serialisation of a parsed expression stands in for
`sympy.latex`. -/

/-- Round-half-to-even, the rounding of `"{:.Nf}".format`. -/
def roundHalfEven (x : ℚ) : Int :=
  let f := ⌊x⌋
  let r := x - f
  if r < 1/2 then f else if 1/2 < r then f + 1
  else if f % 2 = 0 then f else f + 1

/-- Left-pad with zeros to a given width. -/
def padZeros (s : String) (w : Nat) : String :=
  String.mk (List.replicate (w - s.length) '0') ++ s

/-- Fixed-point decimal rendering, `"{:.df}".format(q)`. -/
def formatFixed (d : Nat) (q : ℚ) : String :=
  let n := roundHalfEven (q * (10 ^ d : ℕ))
  let sign := if n < 0 then "-" else ""
  let a := n.natAbs
  let ip := a / 10 ^ d
  let fp := a % 10 ^ d
  if d = 0 then sign ++ toString ip
  else sign ++ toString ip ++ "." ++ padZeros (toString fp) d

/-- The `.replace("%", "\\%")` of `_format_value`. -/
def escapePercents (s : String) : String :=
  String.mk (s.data.foldr (fun c acc => if c = '%' then '\\' :: '%' :: acc else c :: acc) [])

/-- Short LaTeX form of a unit (`f"{val.units:~L}"`). -/
def unitLatex (u : UnitObj) : String := "\\mathrm\x7b" ++ u.uname ++ "\x7d"

def joinSep (sep : String) : List String → String
  | [] => ""
  | [x] => x
  | x :: xs => x ++ sep ++ joinSep sep xs

/-- `LaTeXFormatter._format_value`.  Branch order follows the source:
quantities, then `int`/`float` scalars (a Python `bool` is an `int` and
formats as its numeric value), then bare arrays, then the `str(val)`
fallback — which is how a missing (`None`) result prints as `"None"`. -/
def formatValue (prec : Nat) (val : Option PyObj) (fmtSpec : Option Nat) : String :=
  let d := fmtSpec.getD prec
  match val with
  | some (.vquant m u) => escapePercents (formatFixed d m ++ "\\ " ++ unitLatex u)
  | some (.vnum q) => escapePercents (formatFixed d q)
  | some (.vbool b) => escapePercents (formatFixed d (if b then 1 else 0))
  | some (.varr l) => "[" ++ joinSep ", " (l.map (formatFixed d)) ++ "]"
  | some (.vbarr l) => "[" ++ joinSep ", " (l.map (fun b => if b then "True" else "False")) ++ "]"
  | some (.vstr s) => s
  | some .vnone => "None"
  | none => "None"

/-- Generic typeset printer over a variable renderer, the stand-in for
`sympy.latex` on the trees this grammar produces. -/
def exprPrint (rv : String → String) : Expr → String
  | .const q => if q.den = 1 then toString q.num else toString q.num ++ "/" ++ toString q.den
  | .var v => rv v
  | .add a b => exprPrint rv a ++ " + " ++ exprPrint rv b
  | .sub a b => exprPrint rv a ++ " - " ++ exprPrint rv b
  | .mul a b => exprPrint rv a ++ " \\cdot " ++ exprPrint rv b
  | .div a b => "\\frac\x7b" ++ exprPrint rv a ++ "\x7d\x7b" ++ exprPrint rv b ++ "\x7d"
  | .neg a => "- " ++ exprPrint rv a
  | .lt a b => exprPrint rv a ++ " < " ++ exprPrint rv b
  | .le a b => exprPrint rv a ++ " \\leq " ++ exprPrint rv b
  | .gt a b => exprPrint rv a ++ " > " ++ exprPrint rv b
  | .ge a b => exprPrint rv a ++ " \\geq " ++ exprPrint rv b

/-- `LaTeXFormatter._format_expr`: symbols with a display mapping render
by it, others by their own name. -/
def formatExprL (g : Graph) (e : Expr) : String :=
  exprPrint (fun v => (lookupA g.symbols v).getD v) e

/-- Variable rendering inside a check row: symbols with a current value
display as `{symbol} = value`, with the format resolved from the check's
own spec, else the declaring step's. -/
def checkVarLatex (prec : Nat) (g : Graph) (s : Step) (v : String) : String :=
  match lookupA g.params v with
  | some val =>
      let latexSym := (lookupA g.symbols v).getD v
      let fmt := match s.fmt with
                 | some f => some f
                 | none => (findStepByName g.steps v).bind (fun d => d.fmt)
      "\x7b" ++ latexSym ++ "\x7d = " ++ formatValue prec (some val) fmt
  | none => (lookupA g.symbols v).getD v

/-- Check expression rendering: substituted symbols, negated when the
check did not pass (a falsy cached result). -/
def checkLatex (prec : Nat) (g : Graph) (s : Step) : String :=
  let core := exprPrint (checkVarLatex prec g s) s.expr
  match s.result with
  | some (.vbool true) => core
  | _ => "\\neg " ++ core

def checkStatus (s : Step) : String :=
  match s.result with
  | some (.vbool true) => "\\textbf\x7b\\textcolor\x7bgreen\x7d\x7bOK\x7d\x7d"
  | _ => "\\textbf\x7b\\textcolor\x7bred\x7d\x7bNOK\x7d\x7d"

/-- One rendered row of the `"standard"` template. -/
def renderRow (prec : Nat) (g : Graph) (s : Step) : String :=
  match s.type with
  | .param =>
      s.symbol ++ " &= " ++ formatValue prec s.value s.fmt
        ++ " && \\text\x7b" ++ s.desc ++ "\x7d \\\\"
  | .eq =>
      s.symbol ++ " &= " ++ formatExprL g s.expr ++ " = "
        ++ formatValue prec s.result s.fmt
        ++ " && \\text\x7b" ++ s.desc ++ "\x7d \\\\"
  | .check =>
      "\\text\x7b" ++ s.name ++ "\x7d : &&& \\text\x7b" ++ s.desc ++ "\x7d \\\\ & "
        ++ checkLatex prec g s ++ " \\rightarrow " ++ checkStatus s ++ " &&  \\\\"

def closeEnv : Option String → List String
  | none => []
  | some env => ["\\end\x7b" ++ env ++ "\x7d"]

/-- The report loop: hidden steps are skipped, the running environment
is switched when needed (under the standard template every step kind
asks for `align*`). -/
def reportLinesAux (prec : Nat) (g : Graph) : Option String → List Step → List String
  | curEnv, [] => closeEnv curEnv
  | curEnv, s :: rest =>
      if s.hidden then reportLinesAux prec g curEnv rest
      else
        let envLines :=
          if curEnv = some "align*" then []
          else closeEnv curEnv ++ ["\\begin\x7balign*\x7d"]
        envLines ++ (renderRow prec g s :: reportLinesAux prec g (some "align*") rest)

/-- `"\n".join(lines)`. -/
def joinLines : List String → String
  | [] => ""
  | [l] => l
  | l :: ls => l ++ "\n" ++ joinLines ls

/-- `LaTeXFormatter.report` at its default invocation. -/
def report (prec : Nat) (g : Graph) : String :=
  joinLines (reportLinesAux prec g none g.steps)

/-! ## Inversion lemmas for the evaluation loop -/

/-! ## Concrete instances used by witnesses and counterexamples -/

def meterU : UnitObj := ⟨"meter", 1, 0, 0, 1⟩
def cmU : UnitObj := ⟨"centimeter", 1, 0, 0, 1/100⟩
def secondU : UnitObj := ⟨"second", 0, 0, 1, 1⟩

/-- C8 witness graph (built step by step): two parameters, a successful
equation, a division by zero, and a never-reached equation. -/
def c8g1 : Graph := (add_param emptyGraph "a" "a" (.vnum 1) "" false none).1

def c8g2 : Graph := (add_param c8g1 "x" "x" (.vnum 0) "" false none).1

def c8g3 : Graph :=
  (add_equation c8g2 "b" "b" "a+1" (.add (.var "a") (.const 1)) none "" false none).1

def c8g4 : Graph :=
  (add_equation c8g3 "q" "q" "1/x" (.div (.const 1) (.var "x")) none "" false none).1

def c8graph : Graph :=
  (add_equation c8g4 "d" "d" "a" (.var "a") none "" false none).1

/-- C2 counterexample graph: a length stored in centimeters, converted
by an equation whose target unit is a time. -/
def c2dimg1 : Graph := (add_param emptyGraph "L" "L" (.vquant 1 cmU) "" false none).1

def c2dimGraph : Graph :=
  (add_equation c2dimg1 "badstep" "B" "L" (.var "L") (some secondU) "" false none).1

/-- C2 witness graph: a check over an undefined variable. -/
def c2checkGraph : Graph :=
  (add_check emptyGraph "zz > 0" (.gt (.var "zz") (.const 0)) "dw" "Check" none).1

/-- C7 witness step: an equation reading a centimeter quantity with a
meter target unit. -/
def c7step : Step :=
  { type := .eq, name := "LLm", symbol := "L_m", value := none, exprStr := "LL",
    expr := .var "LL", unit := some meterU, desc := "", hidden := false,
    fmt := none, compiled := none, result := none }

def c7ps : List (String × PyObj) := [("LL", .vquant 100 cmU)]

/-- C10 witness graph: a parameter and an equation, never evaluated. -/
def c10g1 : Graph := (add_param emptyGraph "p" "p" (.vnum 3) "" false none).1

def c10graph : Graph :=
  (add_equation c10g1 "e1" "E" "p*2" (.mul (.var "p") (.const 2)) none "d10" false none).1

/-- C1 graph: parameters `a = 5`, `b = 2` and equations `y = a+b`,
`z = y*2`, no target units. -/
def c1g1 : Graph := (add_param emptyGraph "a" "a" (.vnum 5) "" false none).1

def c1g2 : Graph := (add_param c1g1 "b" "b" (.vnum 2) "" false none).1

def c1g3 : Graph :=
  (add_equation c1g2 "y" "y" "a+b" (.add (.var "a") (.var "b")) none "" false none).1

def c1graph : Graph :=
  (add_equation c1g3 "z" "z" "y*2" (.mul (.var "y") (.const 2)) none "" false none).1

/-- The bulk input `{a: 5, b: 2}` of the C1 scenario. -/
def c1df : List (String × PyObj) := [("a", .vnum 5), ("b", .vnum 2)]

/-- The reserved words of Python (the `keyword.kwlist`). -/
def pythonKeywords : List String :=
  ["False", "None", "True", "and", "as", "assert", "async", "await", "break",
   "class", "continue", "def", "del", "elif", "else", "except", "finally",
   "for", "from", "global", "if", "in", "is", "lambda", "nonlocal",
   "not", "or", "pass", "raise", "return", "try", "while", "with", "yield",
   "import"]

/-- Spec-side definition, following the words of the data model section:
a valid bare identifier has a letters/underscore start, alphanumerics or
underscores thereafter, and is not a reserved word.  (The code instead
uses `str.isidentifier`, which accepts reserved words.) -/
def specBareIdentifier (s : String) : Bool :=
  isIdentStr s && !(pythonKeywords.contains s)

/-- C4 counterexample: the same parameter name declared twice. -/
def c4g1 : Graph := (add_param emptyGraph "dup" "x" (.vnum 1) "" false none).1

def c4g2 : Graph := (add_param c4g1 "dup" "y" (.vnum 2) "" false none).1

/-- Construction-time outcome of `lambdify_equation`, the returned
closure discarded. -/
def constructionResult (reg : Reg) (g : Graph) (name : String) : Except LamErr Unit :=
  match lambdify_equation reg g name with
  | .error e => .error e
  | .ok _ => .ok ()

/-- C3 graphs: a self-referential equation (expansion can never bottom
out) and an equation over an undeclared variable. -/
def c3cyc : Graph :=
  (add_equation emptyGraph "ww" "w" "ww+1" (.add (.var "ww") (.const 1)) none "" false none).1

def c3cycStep : Step :=
  { type := .eq, name := "ww", symbol := "w", value := none, exprStr := "ww+1",
    expr := .add (.var "ww") (.const 1), unit := none, desc := "", hidden := false,
    fmt := none, compiled := none, result := none }

def c3miss : Graph :=
  (add_equation emptyGraph "only" "o" "x*2" (.mul (.var "x") (.const 2)) none "" false none).1

/-- Names of the Equation steps of a step list (in order). -/
def eqNames : List Step → List String
  | [] => []
  | s :: r => if s.type = StepType.eq then s.name :: eqNames r else eqNames r

/-- The declaration discipline the spec prescribes (each equation/check
references only parameters and strictly earlier equations): no
equation/check step reads a name that an equation at its own or a later
position defines.  `UNIT_` placeholders resolve from the registry and
are exempt. -/
def readsOk : List Step → Bool
  | [] => true
  | s :: r =>
      (if s.type = StepType.param then true
       else (argsNames (ceOf s)).all
         (fun v => v.startsWith "UNIT_" || !(decide (v ∈ eqNames (s :: r)))))
      && readsOk r

/-- C9 counterexample graph: a parameter overwritten by an equation of
the same name that reads itself. -/
def c9b1 : Graph := (add_param emptyGraph "x" "x" (.vnum 1) "" false none).1

def c9bad : Graph :=
  (add_equation c9b1 "x" "x" "x+1" (.add (.var "x") (.const 1)) none "" false none).1

/-- C9 witness graph: parameters and equations in topological order plus
a check. -/
def c9w1 : Graph := (add_param emptyGraph "xx" "x" (.vnum 4) "" false none).1

def c9w2 : Graph :=
  (add_equation c9w1 "yy" "y" "xx+2" (.add (.var "xx") (.const 2)) none "" false none).1

def c9w3 : Graph :=
  (add_equation c9w2 "zz" "z" "yy*3" (.mul (.var "yy") (.const 3)) none "" false none).1

def c9good : Graph :=
  (add_check c9w3 "zz > xx" (.gt (.var "zz") (.var "xx")) "d9" "Check" none).1

/-! ## Lemma library -/

theorem containsList_iff (pat l : List Char) :
    containsList pat l = true ↔ pat <:+: l := by
  induction l with
  | nil =>
      simp [containsList, List.isEmpty_iff]
  | cons c rest ih =>
      simp [containsList, List.infix_cons_iff, ih, List.isPrefixOf_iff_prefix,
        or_comm]

theorem string_data_append (a b : String) : (a ++ b).data = a.data ++ b.data := rfl

theorem strContains_iff (s pat : String) :
    strContains s pat = true ↔ pat.data <:+: s.data := by
  simp [strContains, containsList_iff]

theorem strContains_of_eq_append (a b c : String) :
    strContains (a ++ b ++ c) b = true := by
  have h : b.data <:+: (a ++ b ++ c).data := by
    refine ⟨a.data, c.data, ?_⟩
    simp [string_data_append]
  exact (strContains_iff _ _).mpr h

theorem lookupA_updateA_self {α : Type} (l : List (String × α)) (k : String) (v : α) :
    lookupA (updateA l k v) k = some v := by
  induction l with
  | nil => simp [updateA, lookupA]
  | cons hd tl ih =>
      obtain ⟨k1, v1⟩ := hd
      by_cases h : k1 = k <;> simp [updateA, lookupA, h, ih]

theorem lookupA_updateA_ne {α : Type} (l : List (String × α)) (k k' : String) (v : α)
    (h : k ≠ k') : lookupA (updateA l k v) k' = lookupA l k' := by
  induction l with
  | nil => simp [updateA, lookupA, h]
  | cons hd tl ih =>
      obtain ⟨k1, v1⟩ := hd
      by_cases h1 : k1 = k
      · subst h1
        simp [updateA, lookupA, h]
      · simp [updateA, lookupA, h1, ih]

theorem updateA_self_of_lookupA {α : Type} (l : List (String × α)) (k : String) (v : α)
    (h : lookupA l k = some v) : updateA l k v = l := by
  induction l with
  | nil => simp [lookupA] at h
  | cons hd tl ih =>
      obtain ⟨k1, v1⟩ := hd
      by_cases h1 : k1 = k
      · subst h1
        simp [lookupA] at h
        simp [updateA, h]
      · simp [lookupA, h1] at h
        simp [updateA, h1, ih h]

theorem mem_insertSorted (x v : String) (l : List String) :
    v ∈ insertSorted x l ↔ v = x ∨ v ∈ l := by
  induction l with
  | nil => simp [insertSorted]
  | cons y ys ih =>
      by_cases h : x ≤ y
      · simp [insertSorted, h]
      · simp [insertSorted, h, ih]
        tauto

theorem mem_sortStrings (v : String) (l : List String) :
    v ∈ sortStrings l ↔ v ∈ l := by
  induction l with
  | nil => simp [sortStrings]
  | cons x xs ih => simp [sortStrings, mem_insertSorted, ih]

theorem mem_argsNames (v : String) (e : Expr) :
    v ∈ argsNames e ↔ v ∈ e.freeVarsList := by
  simp [argsNames, mem_sortStrings]

theorem lastCtx_nil (prev : Option Char) : lastCtx prev [] = prev := rfl

theorem lastCtx_cons (prev : Option Char) (c : Char) (pre : List Char) :
    lastCtx prev (c :: pre) = lastCtx (some c) pre := by
  cases pre with
  | nil => simp [lastCtx]
  | cons y ys =>
      unfold lastCtx
      rw [List.getLast?_cons_cons]
      cases h2 : (y :: ys).getLast? with
      | some d => rfl
      | none =>
          exfalso
          rw [List.getLast?_eq_none_iff] at h2
          cases h2

/-- Generalisation of the scanner correctness over the scanned prefix. -/
theorem wwScan_iff (w : List Char) (hw : w ≠ []) :
    ∀ (l : List Char) (prev : Option Char),
      wwScan w prev l = true ↔
        ∃ pre post : List Char, l = pre ++ w ++ post ∧
          boundaryBefore (lastCtx prev pre) = true ∧
          boundaryAfter post = true := by
  intro l
  induction l with
  | nil =>
      intro prev
      simp only [wwScan]
      constructor
      · intro h
        cases h
      · rintro ⟨pre, post, habs, -, -⟩
        rcases pre with _ | ⟨x, xs⟩
        · rcases w with _ | ⟨y, ys⟩
          · exact absurd rfl hw
          · simp at habs
        · simp at habs
  | cons c rest ih =>
      intro prev
      simp only [wwScan, Bool.or_eq_true, Bool.and_eq_true, ih]
      constructor
      · rintro (⟨⟨hpref, hb⟩, ha⟩ | ⟨pre, post, hsplit, hb, ha⟩)
        · obtain ⟨t, ht⟩ := List.isPrefixOf_iff_prefix.mp hpref
          refine ⟨[], t, by simp [← ht], by simpa [lastCtx_nil] using hb, ?_⟩
          have hdrop : List.drop w.length (c :: rest) = t := by
            rw [← ht]
            simp
          rwa [hdrop] at ha
        · exact ⟨c :: pre, post, by simp [hsplit], by rwa [lastCtx_cons], ha⟩
      · rintro ⟨pre, post, hsplit, hb, ha⟩
        cases pre with
        | nil =>
            left
            simp only [List.nil_append] at hsplit
            refine ⟨⟨List.isPrefixOf_iff_prefix.mpr ⟨post, hsplit.symm⟩, ?_⟩, ?_⟩
            · simpa [lastCtx_nil] using hb
            · rw [hsplit]
              have hdrop : List.drop w.length (w ++ post) = post := by simp
              rwa [hdrop]
        | cons x xs =>
            right
            simp only [List.cons_append, List.cons.injEq] at hsplit
            obtain ⟨hx, hrest⟩ := hsplit
            subst hx
            exact ⟨xs, post, hrest, by rwa [lastCtx_cons] at hb, ha⟩

theorem lastCtx_none (pre : List Char) : lastCtx none pre = pre.getLast? := by
  cases h : pre.getLast? <;> simp [lastCtx, h]

/-- Scanner correctness: the regex whole-word search of `security_check`
finds exactly the whole-word occurrences in the sense of the spec. -/
theorem containsWholeWord_iff (expr w : String) (hw : w.data ≠ []) :
    containsWholeWord expr w = true ↔ WholeWordOccurs w expr := by
  unfold containsWholeWord WholeWordOccurs
  rw [wwScan_iff w.data hw expr.data none]
  constructor
  · rintro ⟨pre, post, h1, h2, h3⟩
    exact ⟨pre, post, h1, by rwa [lastCtx_none] at h2, h3⟩
  · rintro ⟨pre, post, h1, h2, h3⟩
    exact ⟨pre, post, h1, by rwa [lastCtx_none], h3⟩

theorem evalStep_error_params (reg : Reg) (s : Step) (ps : List (String × PyObj))
    (s1 : Step) (ps2 : List (String × PyObj)) (e : RaisedErr)
    (h : evalStep reg s ps = (s1, ps2, some e)) : ps2 = ps := by
  unfold evalStep at h
  split at h
  · simp at h
  · unfold evalStepEq at h
    split at h
    · simp only [Prod.mk.injEq] at h
      exact h.2.1.symm
    · split at h
      · simp only [Prod.mk.injEq] at h
        exact h.2.1.symm
      · simp at h
  · unfold evalStepCheck at h
    split at h
    · simp only [Prod.mk.injEq] at h
      exact h.2.1.symm
    · simp at h

/-- A failing pass decomposes into a successful prefix (whose final
symbol table is exactly the returned one), the failing step, and an
untouched suffix. -/
theorem evalSteps_error_split (reg : Reg) :
    ∀ (steps : List Step) (ps : List (String × PyObj)) (steps' : List Step)
      (ps' : List (String × PyObj)) (e : RaisedErr),
      evalSteps reg steps ps = (steps', ps', some e) →
      ∃ pre s post pre' s1,
        steps = pre ++ s :: post ∧
        evalSteps reg pre ps = (pre', ps', none) ∧
        evalStep reg s ps' = (s1, ps', some e) ∧
        steps' = pre' ++ s1 :: post := by
  intro steps
  induction steps with
  | nil =>
      intro ps steps' ps' e h
      simp [evalSteps] at h
  | cons s rest ih =>
      intro ps steps' ps' e h
      rcases hstep : evalStep reg s ps with ⟨s1, ps1, oe⟩
      cases oe with
      | some e0 =>
          simp only [evalSteps, hstep, Prod.mk.injEq, Option.some.injEq] at h
          obtain ⟨h1, h2, h3⟩ := h
          subst h3
          have hps : ps1 = ps := evalStep_error_params reg s ps s1 ps1 e0 hstep
          refine ⟨[], s, rest, [], s1, rfl, ?_, ?_, h1.symm⟩
          · rw [← h2, hps]
            rfl
          · rw [← h2, hps]
            rw [hps] at hstep
            exact hstep
      | none =>
          rcases hrest : evalSteps reg rest ps1 with ⟨rest1, ps2, oe2⟩
          simp only [evalSteps, hstep, hrest, Prod.mk.injEq] at h
          obtain ⟨h1, h2, h3⟩ := h
          rw [h2, h3] at hrest
          obtain ⟨pre, s0, post, pre', s1', hsplit, hpre, hfail, hsteps'⟩ :=
            ih ps1 rest1 ps' e hrest
          refine ⟨s :: pre, s0, post, s1 :: pre', s1', by simp [hsplit], ?_, hfail, ?_⟩
          · simp only [evalSteps, hstep, hpre]
          · rw [← h1, hsteps']
            simp


theorem strContains_build (s pat : String) (pre post : List Char)
    (h : pre ++ pat.data ++ post = s.data) : strContains s pat = true :=
  (strContains_iff s pat).mpr ⟨pre, post, h⟩

/-- An equation or check failure is classified by `eqRaise` on the
equation branch and `checkRaise` on the check branch. -/
theorem evalStep_error_shape (reg : Reg) (s : Step) (ps : List (String × PyObj))
    (s1 : Step) (ps2 : List (String × PyObj)) (e : RaisedErr)
    (h : evalStep reg s ps = (s1, ps2, some e)) :
    (s.type = .eq ∧ ∃ e0 : EvalErr, e = eqRaise s.name s.exprStr e0) ∨
    (s.type = .check ∧ ∃ e0 : EvalErr, e = checkRaise s.desc e0) := by
  cases hs : s.type with
  | param =>
      simp only [evalStep, hs] at h
      simp at h
  | eq =>
      simp only [evalStep, hs] at h
      rcases hr : evaluateRawExpression reg ps (ceOf s) with e0 | raw
      · simp only [evalStepEq, hr, Prod.mk.injEq, Option.some.injEq] at h
        exact .inl ⟨rfl, e0, h.2.2.symm⟩
      · rcases ha : applyTargetUnit raw s.unit with e0 | v
        · simp only [evalStepEq, hr, ha, Prod.mk.injEq, Option.some.injEq] at h
          exact .inl ⟨rfl, e0, h.2.2.symm⟩
        · simp only [evalStepEq, hr, ha, Prod.mk.injEq] at h
          simp at h
  | check =>
      simp only [evalStep, hs] at h
      rcases hr : evaluateRawExpression reg ps (ceOf s) with e0 | raw
      · simp only [evalStepCheck, hr, Prod.mk.injEq, Option.some.injEq] at h
        exact .inr ⟨rfl, e0, h.2.2.symm⟩
      · simp only [evalStepCheck, hr, Prod.mk.injEq] at h
        simp at h

theorem joinLines_infix (l : String) : ∀ (lines : List String), l ∈ lines →
    l.data <:+: (joinLines lines).data := by
  intro lines
  induction lines with
  | nil => intro h; cases h
  | cons l0 rest ih =>
      intro h
      cases rest with
      | nil =>
          have : l = l0 := by
            cases h with
            | head => rfl
            | tail _ h2 => cases h2
          subst this
          exact List.infix_refl _
      | cons l1 rest2 =>
          cases h with
          | head =>
              refine ⟨[], ("\n" ++ joinLines (l1 :: rest2)).data, ?_⟩
              simp [joinLines, string_data_append]
          | tail _ h2 =>
              have hrec := ih h2
              refine hrec.trans ⟨(l0 ++ "\n").data, [], ?_⟩
              simp [joinLines, string_data_append]

theorem mem_reportLinesAux (prec : Nat) (g : Graph) :
    ∀ (steps : List Step) (env : Option String) (s : Step),
      s ∈ steps → s.hidden = false →
      renderRow prec g s ∈ reportLinesAux prec g env steps := by
  intro steps
  induction steps with
  | nil => intro env s h; cases h
  | cons s0 rest ih =>
      intro env s hs hh
      cases hs with
      | head =>
          simp only [reportLinesAux, hh]
          simp
      | tail _ h2 =>
          by_cases h0 : s0.hidden
          · simp only [reportLinesAux, h0, if_pos]
            exact ih env s h2 hh
          · simp only [reportLinesAux, h0, if_neg]
            exact List.mem_append_right _ (List.mem_cons_of_mem _ (ih (some "align*") s h2 hh))

theorem forbiddenWords_ne_nil : ∀ w ∈ forbiddenWords, w.data ≠ [] := by decide

/-- Boolean-level reading of `_validate_expression`. -/
theorem validate_expression_ok_iff_bool (name expr : String) :
    validate_expression name expr = .ok () ↔
      (isIdentStr name = true ∧ strContains expr "__" = false ∧
       forbiddenWords.any (fun w => containsWholeWord expr w) = false) := by
  unfold validate_expression security_check
  by_cases h1 : isIdentStr name <;>
    by_cases h2 : strContains expr "__" <;>
      by_cases h3 : forbiddenWords.any (fun w => containsWholeWord expr w) <;>
        simp [h1, h2, h3]

/-- The Safety Filter accepts exactly the expressions with no dunder
sequence and no whole-word deny-list hit, under an identifier name. -/
theorem validate_expression_ok_iff (name expr : String) :
    validate_expression name expr = .ok () ↔
      (isIdentStr name = true ∧ ¬ DunderOccurs expr ∧
       ∀ w ∈ forbiddenWords, ¬ WholeWordOccurs w expr) := by
  rw [validate_expression_ok_iff_bool]
  constructor
  · rintro ⟨h1, h2, h3⟩
    refine ⟨h1, ?_, ?_⟩
    · intro hc
      rw [(strContains_iff expr "__").mpr hc] at h2
      cases h2
    · intro w hw hww
      have hb := (containsWholeWord_iff expr w (forbiddenWords_ne_nil w hw)).mpr hww
      have : forbiddenWords.any (fun v => containsWholeWord expr v) = true :=
        List.any_eq_true.mpr ⟨w, hw, hb⟩
      rw [this] at h3
      cases h3
  · rintro ⟨h1, h2, h3⟩
    refine ⟨h1, ?_, ?_⟩
    · cases hc : strContains expr "__" with
      | false => rfl
      | true => exact absurd ((strContains_iff expr "__").mp hc) h2
    · cases hc : forbiddenWords.any (fun v => containsWholeWord expr v) with
      | false => rfl
      | true =>
          obtain ⟨w, hw, hb⟩ := List.any_eq_true.mp hc
          exact absurd ((containsWholeWord_iff expr w (forbiddenWords_ne_nil w hw)).mp hb)
            (h3 w hw)

theorem qAdd_not_keyErr (x y : PyObj) (m : String) : qAdd x y ≠ .error (.keyErr m) := by
  intro h
  cases x <;> cases y <;> simp only [qAdd] at h <;> (try split at h) <;> simp_all

theorem qSub_not_keyErr (x y : PyObj) (m : String) : qSub x y ≠ .error (.keyErr m) := by
  intro h
  cases x <;> cases y <;> simp only [qSub] at h <;> (try split at h) <;> simp_all

theorem qMul_not_keyErr (x y : PyObj) (m : String) : qMul x y ≠ .error (.keyErr m) := by
  intro h
  cases x <;> cases y <;> simp only [qMul] at h <;> (try split at h) <;> simp_all

theorem qDiv_not_keyErr (x y : PyObj) (m : String) : qDiv x y ≠ .error (.keyErr m) := by
  intro h
  cases x <;> cases y <;> simp only [qDiv] at h <;> (try split at h) <;>
    (try split at h) <;> simp_all

theorem qCompare_not_keyErr (cmp : ℚ → ℚ → Bool) (x y : PyObj) (m : String) :
    qCompare cmp x y ≠ .error (.keyErr m) := by
  intro h
  cases x <;> cases y <;> simp only [qCompare] at h <;> (try split at h) <;> simp_all

theorem bindOp_not_keyErr (ra rb : Except EvalErr PyObj)
    (op : PyObj → PyObj → Except EvalErr PyObj)
    (hop : ∀ x y m, op x y ≠ .error (.keyErr m))
    (iha : ∀ m, ra ≠ .error (.keyErr m))
    (ihb : ∀ m, rb ≠ .error (.keyErr m)) :
    ∀ m, (do op (← ra) (← rb)) ≠ .error (.keyErr m) := by
  intro m h
  cases ha : ra with
  | error e1 =>
      rw [ha] at h
      simp only [bind, Except.bind] at h
      exact iha m (by rw [ha, h])
  | ok va =>
      rw [ha] at h
      simp only [bind, Except.bind] at h
      cases hb : rb with
      | error e2 =>
          rw [hb] at h
          exact ihb m (by rw [hb]; exact h)
      | ok vb =>
          rw [hb] at h
          exact hop va vb m h

/-- The compiled numeric function can only signal a `KeyError` through
its environment: with every free symbol bound, none escapes. -/
theorem evalExpr_not_keyErr (env : String → Except EvalErr PyObj) (e : Expr)
    (henv : ∀ v ∈ e.freeVarsList, ∀ m, env v ≠ .error (.keyErr m)) :
    ∀ m, evalExpr env e ≠ .error (.keyErr m) := by
  induction e with
  | const q => intro m h; simp [evalExpr] at h
  | var v => exact fun m h => henv v (by simp [Expr.freeVarsList]) m h
  | add a b iha ihb =>
      exact bindOp_not_keyErr _ _ qAdd qAdd_not_keyErr
        (iha fun v hv => henv v (by simp [Expr.freeVarsList]; exact .inl hv))
        (ihb fun v hv => henv v (by simp [Expr.freeVarsList]; exact .inr hv))
  | sub a b iha ihb =>
      exact bindOp_not_keyErr _ _ qSub qSub_not_keyErr
        (iha fun v hv => henv v (by simp [Expr.freeVarsList]; exact .inl hv))
        (ihb fun v hv => henv v (by simp [Expr.freeVarsList]; exact .inr hv))
  | mul a b iha ihb =>
      exact bindOp_not_keyErr _ _ qMul qMul_not_keyErr
        (iha fun v hv => henv v (by simp [Expr.freeVarsList]; exact .inl hv))
        (ihb fun v hv => henv v (by simp [Expr.freeVarsList]; exact .inr hv))
  | div a b iha ihb =>
      exact bindOp_not_keyErr _ _ qDiv qDiv_not_keyErr
        (iha fun v hv => henv v (by simp [Expr.freeVarsList]; exact .inl hv))
        (ihb fun v hv => henv v (by simp [Expr.freeVarsList]; exact .inr hv))
  | neg a iha =>
      intro m h
      simp only [evalExpr] at h
      cases ha : evalExpr env a with
      | error e1 =>
          rw [ha] at h
          simp only [bind, Except.bind] at h
          exact iha (fun v hv => henv v (by simpa [Expr.freeVarsList] using hv)) m
            (by rw [ha, h])
      | ok va =>
          rw [ha] at h
          simp only [bind, Except.bind] at h
          exact qSub_not_keyErr (.vnum 0) va m h
  | lt a b iha ihb =>
      exact bindOp_not_keyErr _ _ _ (qCompare_not_keyErr _)
        (iha fun v hv => henv v (by simp [Expr.freeVarsList]; exact .inl hv))
        (ihb fun v hv => henv v (by simp [Expr.freeVarsList]; exact .inr hv))
  | le a b iha ihb =>
      exact bindOp_not_keyErr _ _ _ (qCompare_not_keyErr _)
        (iha fun v hv => henv v (by simp [Expr.freeVarsList]; exact .inl hv))
        (ihb fun v hv => henv v (by simp [Expr.freeVarsList]; exact .inr hv))
  | gt a b iha ihb =>
      exact bindOp_not_keyErr _ _ _ (qCompare_not_keyErr _)
        (iha fun v hv => henv v (by simp [Expr.freeVarsList]; exact .inl hv))
        (ihb fun v hv => henv v (by simp [Expr.freeVarsList]; exact .inr hv))
  | ge a b iha ihb =>
      exact bindOp_not_keyErr _ _ _ (qCompare_not_keyErr _)
        (iha fun v hv => henv v (by simp [Expr.freeVarsList]; exact .inl hv))
        (ihb fun v hv => henv v (by simp [Expr.freeVarsList]; exact .inr hv))

theorem resolveArgs_ok_lookup (get1 : String → Except EvalErr PyObj) :
    ∀ (args : List String) (resolved : List (String × PyObj)),
      resolveArgs get1 args = .ok resolved →
      ∀ a ∈ args, ∃ v, lookupA resolved a = some v := by
  intro args
  induction args with
  | nil => intro resolved h a ha; cases ha
  | cons a0 rest ih =>
      intro resolved h a ha
      simp only [resolveArgs, bind, Except.bind] at h
      cases h1 : get1 a0 with
      | error e1 => rw [h1] at h; cases h
      | ok v0 =>
          rw [h1] at h
          cases h2 : resolveArgs get1 rest with
          | error e2 => rw [h2] at h; cases h
          | ok r =>
              rw [h2] at h
              simp only [Except.ok.injEq] at h
              subst h
              by_cases hak : a0 = a
              · exact ⟨v0, by simp [lookupA, hak]⟩
              · have hmem : a ∈ rest := by
                  cases ha with
                  | head => exact absurd rfl hak
                  | tail _ ht => exact ht
                obtain ⟨v, hv⟩ := ih r h2 a hmem
                exact ⟨v, by simp [lookupA, hak, hv]⟩

theorem resolveArgs_error_source (get1 : String → Except EvalErr PyObj) :
    ∀ (args : List String) (err : EvalErr),
      resolveArgs get1 args = .error err → ∃ a ∈ args, get1 a = .error err := by
  intro args
  induction args with
  | nil => intro err h; cases h
  | cons a0 rest ih =>
      intro err h
      simp only [resolveArgs, bind, Except.bind] at h
      cases h1 : get1 a0 with
      | error e1 =>
          rw [h1] at h
          have h3 : (Except.error e1 : Except EvalErr (List (String × PyObj))) = .error err := h
          injection h3 with he
          subst he
          exact ⟨a0, by simp, h1⟩
      | ok v0 =>
          rw [h1] at h
          cases h2 : resolveArgs get1 rest with
          | error e2 =>
              rw [h2] at h
              have h3 : (Except.error e2 : Except EvalErr (List (String × PyObj))) = .error err := h
              injection h3 with he
              subst he
              obtain ⟨a, ha, hget⟩ := ih e2 h2
              exact ⟨a, by simp [ha], hget⟩
          | ok r =>
              rw [h2] at h
              have h3 : (Except.ok ((a0, v0) :: r) : Except EvalErr (List (String × PyObj))) = .error err := h
              cases h3

/-- The only `KeyError` the lambdify wrapper can produce is its own
missing-variable message. -/
theorem wrapperArg_keyErr_shape (reg : Reg) (g : Graph) (name : String)
    (df : List (String × PyObj)) (a : String) (m : String)
    (h : wrapperArg reg g name df a = .error (.keyErr m)) :
    m = "Variable \x27" ++ a ++ "\x27 required for equation \x27" ++ name
      ++ "\x27 not found in DataFrame or Builder parameters." := by
  unfold wrapperArg at h
  split at h
  · split at h <;> simp_all
  · split at h
    · split at h
      · split at h <;> simp_all
      · simp_all
    · split at h <;> simp_all

theorem lamPostprocess_not_keyErr (res : PyObj) (u : Option UnitObj) (m : String) :
    lamPostprocess res u ≠ .error (.keyErr m) := by
  intro h
  cases u <;> cases res <;> simp only [lamPostprocess] at h <;>
    (try split at h) <;> simp_all

theorem strContains_append_right (x y pat : String) (h : strContains y pat = true) :
    strContains (x ++ y) pat = true := by
  rw [strContains_iff] at h ⊢
  exact h.trans ⟨x.data, [], by simp [string_data_append]⟩

theorem evalStep_param_id (reg : Reg) (s : Step) (ps : List (String × PyObj))
    (h : s.type = .param) : evalStep reg s ps = (s, ps, none) := by
  simp [evalStep, h]

theorem evalStep_params_shape (reg : Reg) (s : Step) (ps : List (String × PyObj))
    (s1 : Step) (psA : List (String × PyObj)) (oe : Option RaisedErr)
    (h : evalStep reg s ps = (s1, psA, oe)) :
    psA = ps ∨ (s.type = .eq ∧ ∃ w, psA = updateA ps s.name w) := by
  cases hs : s.type with
  | param =>
      simp only [evalStep, hs, Prod.mk.injEq] at h
      exact .inl h.2.1.symm
  | eq =>
      simp only [evalStep, hs] at h
      rcases hr : evaluateRawExpression reg ps (ceOf s) with e0 | raw
      · simp only [evalStepEq, hr, Prod.mk.injEq] at h
        exact .inl h.2.1.symm
      · rcases ha : applyTargetUnit raw s.unit with e0 | v
        · simp only [evalStepEq, hr, ha, Prod.mk.injEq] at h
          exact .inl h.2.1.symm
        · simp only [evalStepEq, hr, ha, Prod.mk.injEq] at h
          exact .inr ⟨rfl, v, h.2.1.symm⟩
  | check =>
      simp only [evalStep, hs] at h
      rcases hr : evaluateRawExpression reg ps (ceOf s) with e0 | raw <;>
        simp only [evalStepCheck, hr, Prod.mk.injEq] at h <;>
          exact .inl h.2.1.symm

/-- A pass only writes the names of its Equation steps. -/
theorem evalSteps_params_lookup (reg : Reg) :
    ∀ (steps : List Step) (ps : List (String × PyObj)) (steps1 : List Step)
      (ps1 : List (String × PyObj)) (oe : Option RaisedErr),
      evalSteps reg steps ps = (steps1, ps1, oe) →
      ∀ v, v ∉ eqNames steps → lookupA ps1 v = lookupA ps v := by
  intro steps
  induction steps with
  | nil =>
      intro ps steps1 ps1 oe h v hv
      simp only [evalSteps, Prod.mk.injEq] at h
      rw [← h.2.1]
  | cons s rest ih =>
      intro ps steps1 ps1 oe h v hv
      rcases hstep : evalStep reg s ps with ⟨s1, psA, oe1⟩
      have hAv : lookupA psA v = lookupA ps v := by
        rcases evalStep_params_shape reg s ps s1 psA oe1 hstep with hA | ⟨hty, w, hA⟩
        · rw [hA]
        · rw [hA]
          have hvname : v ≠ s.name := by
            intro hc
            subst hc
            apply hv
            simp [eqNames, hty]
          exact lookupA_updateA_ne ps s.name v w (fun hc => hvname hc.symm)
      have hvrest : v ∉ eqNames rest := by
        intro hc
        apply hv
        cases hs : s.type <;> simp [eqNames, hs, hc]
      cases oe1 with
      | none =>
          rcases hrest : evalSteps reg rest psA with ⟨rest1, psB, oe2⟩
          simp only [evalSteps, hstep, hrest, Prod.mk.injEq] at h
          rw [← h.2.1, ih psA rest1 psB oe2 hrest v hvrest, hAv]
      | some e0 =>
          simp only [evalSteps, hstep, Prod.mk.injEq] at h
          rw [← h.2.1, hAv]

theorem getArgValue_congr (reg : Reg) (ps ps2 : List (String × PyObj)) (a : String)
    (h : lookupA ps a = lookupA ps2 a) :
    getArgValue reg ps a = getArgValue reg ps2 a := by
  unfold getArgValue
  split
  · rfl
  · rw [h]

theorem resolveArgs_congr (get1 get2 : String → Except EvalErr PyObj) :
    ∀ (args : List String), (∀ a ∈ args, get1 a = get2 a) →
      resolveArgs get1 args = resolveArgs get2 args := by
  intro args
  induction args with
  | nil => intro h; rfl
  | cons a0 rest ih =>
      intro h
      simp only [resolveArgs]
      rw [h a0 (by simp), ih fun a ha => h a (by simp [ha])]

theorem evaluateRawExpression_congr (reg : Reg) (ps ps2 : List (String × PyObj))
    (ce : Expr) (h : ∀ a ∈ argsNames ce, lookupA ps a = lookupA ps2 a) :
    evaluateRawExpression reg ps ce = evaluateRawExpression reg ps2 ce := by
  unfold evaluateRawExpression
  rw [resolveArgs_congr (getArgValue reg ps) (getArgValue reg ps2) (argsNames ce)
    fun a ha => getArgValue_congr reg ps ps2 a (h a ha)]

theorem evalStepEq_ok_inv (reg : Reg) (s : Step) (ps : List (String × PyObj))
    (s1 : Step) (psA : List (String × PyObj))
    (h : evalStepEq reg s ps = (s1, psA, none)) :
    ∃ raw v, evaluateRawExpression reg ps (ceOf s) = .ok raw ∧
      applyTargetUnit raw s.unit = .ok v ∧
      s1 = { s with compiled := some (ceOf s), result := some v } ∧
      psA = updateA ps s.name v := by
  rcases hr : evaluateRawExpression reg ps (ceOf s) with e0 | raw
  · simp only [evalStepEq, hr, Prod.mk.injEq] at h
    simp at h
  · rcases ha : applyTargetUnit raw s.unit with e0 | v
    · simp only [evalStepEq, hr, ha, Prod.mk.injEq] at h
      simp at h
    · simp only [evalStepEq, hr, ha, Prod.mk.injEq] at h
      exact ⟨raw, v, rfl, ha, h.1.symm, h.2.1.symm⟩

theorem evalStepCheck_ok_inv (reg : Reg) (s : Step) (ps : List (String × PyObj))
    (s1 : Step) (psA : List (String × PyObj))
    (h : evalStepCheck reg s ps = (s1, psA, none)) :
    ∃ raw, evaluateRawExpression reg ps (ceOf s) = .ok raw ∧
      s1 = { s with compiled := some (ceOf s), result := some (.vbool (coerceCheckBool raw)) } ∧
      psA = ps := by
  rcases hr : evaluateRawExpression reg ps (ceOf s) with e0 | raw
  · simp only [evalStepCheck, hr, Prod.mk.injEq] at h
    simp at h
  · simp only [evalStepCheck, hr, Prod.mk.injEq] at h
    exact ⟨raw, rfl, h.1.symm, h.2.1.symm⟩

theorem getArgValue_unit_congr (reg : Reg) (ps ps2 : List (String × PyObj)) (a : String)
    (hU : a.startsWith "UNIT_" = true) :
    getArgValue reg ps a = getArgValue reg ps2 a := by
  simp [getArgValue, hU]

theorem evaluateRawExpression_congr_get (reg : Reg) (ps ps2 : List (String × PyObj))
    (ce : Expr) (h : ∀ a ∈ argsNames ce, getArgValue reg ps a = getArgValue reg ps2 a) :
    evaluateRawExpression reg ps ce = evaluateRawExpression reg ps2 ce := by
  unfold evaluateRawExpression
  rw [resolveArgs_congr (getArgValue reg ps) (getArgValue reg ps2) (argsNames ce) h]

/-- The heart of re-evaluation stability: a successful pass over steps
that read only parameters and strictly earlier equations (with distinct
equation names) reproduces itself exactly when run again on its own
output. -/
theorem evalSteps_idempotent (reg : Reg) :
    ∀ (steps : List Step) (ps : List (String × PyObj)) (steps1 : List Step)
      (ps1 : List (String × PyObj)),
      (eqNames steps).Nodup → readsOk steps = true →
      evalSteps reg steps ps = (steps1, ps1, none) →
      evalSteps reg steps1 ps1 = (steps1, ps1, none) := by
  intro steps
  induction steps with
  | nil =>
      intro ps steps1 ps1 hnd hro h
      simp only [evalSteps, Prod.mk.injEq] at h
      rw [← h.1, ← h.2.1]
      rfl
  | cons s rest ih =>
      intro ps steps1 ps1 hnd hro h
      rcases hstep : evalStep reg s ps with ⟨s1, psA, oe1⟩
      cases oe1 with
      | some e0 =>
          simp only [evalSteps, hstep, Prod.mk.injEq] at h
          simp at h
      | none =>
          rcases hrest : evalSteps reg rest psA with ⟨rest1, psB, oe2⟩
          simp only [evalSteps, hstep, hrest, Prod.mk.injEq] at h
          obtain ⟨h1, h2, h3⟩ := h
          subst h3
          subst h2
          subst h1
          have hro2 : readsOk rest = true := by
            simp only [readsOk, Bool.and_eq_true] at hro
            exact hro.2
          cases hs : s.type with
          | param =>
              have hid := evalStep_param_id reg s ps hs
              rw [hid] at hstep
              simp only [Prod.mk.injEq] at hstep
              obtain ⟨hse, hpse, -⟩ := hstep
              have hnd2 : (eqNames rest).Nodup := by
                have he : eqNames (s :: rest) = eqNames rest := by simp [eqNames, hs]
                rwa [he] at hnd
              have hrec := ih psA rest1 psB hnd2 hro2 hrest
              have hstep2 : evalStep reg s1 psB = (s1, psB, none) :=
                evalStep_param_id reg s1 psB (by rw [← hse]; exact hs)
              simp only [evalSteps, hstep2, hrec]
          | eq =>
              have hdisp : evalStep reg s ps = evalStepEq reg s ps := by
                simp [evalStep, hs]
              rw [hdisp] at hstep
              obtain ⟨raw, v, hraw, happ, hs1, hpsA⟩ :=
                evalStepEq_ok_inv reg s ps s1 psA hstep
              have hEq : eqNames (s :: rest) = s.name :: eqNames rest := by
                simp [eqNames, hs]
              have hnd2 : (eqNames rest).Nodup ∧ s.name ∉ eqNames rest := by
                rw [hEq] at hnd
                obtain ⟨ha, hb⟩ := List.nodup_cons.mp hnd
                exact ⟨hb, ha⟩
              have hargs : ∀ a ∈ argsNames (ceOf s),
                  a.startsWith "UNIT_" = true ∨ a ∉ eqNames (s :: rest) := by
                simp only [readsOk, Bool.and_eq_true] at hro
                have hall := hro.1
                rw [if_neg (by rw [hs]; intro hc; cases hc)] at hall
                intro a ha
                have hone := List.all_eq_true.mp hall a ha
                rcases (Bool.or_eq_true _ _).mp hone with h4 | h4
                · exact .inl h4
                · right
                  simpa using h4
              have hget : ∀ a ∈ argsNames (ceOf s),
                  getArgValue reg psB a = getArgValue reg ps a := by
                intro a ha
                rcases hargs a ha with hU | hmem
                · exact getArgValue_unit_congr reg psB ps a hU
                · have hname : a ≠ s.name := by
                    intro hc
                    apply hmem
                    rw [hEq, hc]
                    exact List.mem_cons_self _ _
                  have hnr : a ∉ eqNames rest := by
                    intro hc
                    apply hmem
                    rw [hEq]
                    exact List.mem_cons_of_mem _ hc
                  apply getArgValue_congr
                  rw [evalSteps_params_lookup reg rest psA rest1 psB none hrest a hnr]
                  rw [hpsA]
                  exact lookupA_updateA_ne ps s.name a v (fun hc => hname hc.symm)
              have hraw2 : evaluateRawExpression reg psB (ceOf s) = .ok raw := by
                rw [evaluateRawExpression_congr_get reg psB ps (ceOf s) hget]
                exact hraw
              have hlook : lookupA psB s.name = some v := by
                rw [evalSteps_params_lookup reg rest psA rest1 psB none hrest s.name hnd2.2]
                rw [hpsA]
                exact lookupA_updateA_self ps s.name v
              have htype1 : s1.type = .eq := by
                rw [hs1]
                exact hs
              have hce : ceOf s1 = ceOf s := by
                rw [hs1]
                rfl
              have hstep2 : evalStep reg s1 psB = (s1, psB, none) := by
                have hraw1 : evaluateRawExpression reg psB (ceOf s1) = .ok raw := by
                  rw [hce]
                  exact hraw2
                have happ1 : applyTargetUnit raw s1.unit = .ok v := by
                  rw [hs1]
                  exact happ
                have hname1 : s1.name = s.name := by rw [hs1]
                have hfix : { s1 with compiled := some (ceOf s1), result := some v } = s1 := by
                  rw [hs1]
                  rfl
                have hrun : evalStepEq reg s1 psB
                    = ({ s1 with compiled := some (ceOf s1), result := some v },
                       updateA psB s1.name v, none) := by
                  simp only [evalStepEq, hraw1, happ1]
                have hdisp2 : evalStep reg s1 psB = evalStepEq reg s1 psB := by
                  simp [evalStep, htype1]
                rw [hdisp2, hrun, hfix, hname1, updateA_self_of_lookupA psB s.name v hlook]
              have hrec := ih psA rest1 psB hnd2.1 hro2 hrest
              simp only [evalSteps, hstep2, hrec]
          | check =>
              have hdisp : evalStep reg s ps = evalStepCheck reg s ps := by
                simp [evalStep, hs]
              rw [hdisp] at hstep
              obtain ⟨raw, hraw, hs1, hpsA⟩ := evalStepCheck_ok_inv reg s ps s1 psA hstep
              have hEq : eqNames (s :: rest) = eqNames rest := by
                simp [eqNames, hs]
              have hnd2 : (eqNames rest).Nodup := by rwa [hEq] at hnd
              have hargs : ∀ a ∈ argsNames (ceOf s),
                  a.startsWith "UNIT_" = true ∨ a ∉ eqNames (s :: rest) := by
                simp only [readsOk, Bool.and_eq_true] at hro
                have hall := hro.1
                rw [if_neg (by rw [hs]; intro hc; cases hc)] at hall
                intro a ha
                have hone := List.all_eq_true.mp hall a ha
                rcases (Bool.or_eq_true _ _).mp hone with h4 | h4
                · exact .inl h4
                · right
                  simpa using h4
              have hget : ∀ a ∈ argsNames (ceOf s),
                  getArgValue reg psB a = getArgValue reg ps a := by
                intro a ha
                rcases hargs a ha with hU | hmem
                · exact getArgValue_unit_congr reg psB ps a hU
                · have hnr : a ∉ eqNames rest := by rwa [hEq] at hmem
                  apply getArgValue_congr
                  rw [evalSteps_params_lookup reg rest psA rest1 psB none hrest a hnr, hpsA]
              have hraw2 : evaluateRawExpression reg psB (ceOf s) = .ok raw := by
                rw [evaluateRawExpression_congr_get reg psB ps (ceOf s) hget]
                exact hraw
              have htype1 : s1.type = .check := by
                rw [hs1]
                exact hs
              have hce : ceOf s1 = ceOf s := by
                rw [hs1]
                rfl
              have hstep2 : evalStep reg s1 psB = (s1, psB, none) := by
                have hraw1 : evaluateRawExpression reg psB (ceOf s1) = .ok raw := by
                  rw [hce]
                  exact hraw2
                have hfix : { s1 with compiled := some (ceOf s1), result := some (.vbool (coerceCheckBool raw)) } = s1 := by
                  rw [hs1]
                  rfl
                have hrun : evalStepCheck reg s1 psB
                    = ({ s1 with compiled := some (ceOf s1), result := some (.vbool (coerceCheckBool raw)) },
                       psB, none) := by
                  simp only [evalStepCheck, hraw1]
                have hdisp2 : evalStep reg s1 psB = evalStepCheck reg s1 psB := by
                  simp [evalStep, htype1]
                rw [hdisp2, hrun, hfix]
              have hrec := ih psA rest1 psB hnd2 hro2 hrest
              simp only [evalSteps, hstep2, hrec]

/-! ## Claim C8 -/

/-- C8: `evaluate()` visits the steps in declaration order and raises on
the first failing step; the graph it leaves behind consists of the
successfully evaluated prefix (whose writes to the symbol table are
exactly the returned table — no rollback), the failing step (which left
the table untouched), and the unevaluated suffix, returned verbatim. -/
theorem c8_first_failure_no_rollback (reg : Reg) (g g1 : Graph) (e : RaisedErr)
    (h : evaluate reg g = (g1, some e)) :
    ∃ pre s post pre1 s1,
      g.steps = pre ++ s :: post ∧
      evalSteps reg pre g.params = (pre1, g1.params, none) ∧
      evalStep reg s g1.params = (s1, g1.params, some e) ∧
      g1.steps = pre1 ++ s1 :: post := by
  rcases hr : evalSteps reg g.steps g.params with ⟨a, b, c⟩
  simp only [evaluate, hr, Prod.mk.injEq] at h
  obtain ⟨hg, hc⟩ := h
  rw [← hg]
  obtain ⟨pre, s, post, pre1, s1, h1, h2, h3, h4⟩ :=
    evalSteps_error_split reg g.steps g.params a b e (by rw [hr, hc])
  exact ⟨pre, s, post, pre1, s1, h1, h2, h3, h4⟩

/-- Witness for C8 at a concrete graph: the pass fails at the
division-by-zero step, the earlier equation result `b = 2` is still in
the returned table, and the trailing steps are unevaluated. -/
theorem c8_first_failure_no_rollback_witness :
    (∃ g1 e, evaluate [] c8graph = (g1, some e) ∧
       lookupA g1.params "b" = some (.vnum 2) ∧
       lookupA g1.params "d" = none ∧
       (∃ pre s post pre1 s1,
         c8graph.steps = pre ++ s :: post ∧
         evalSteps [] pre c8graph.params = (pre1, g1.params, none) ∧
         evalStep [] s g1.params = (s1, g1.params, some e) ∧
         g1.steps = pre1 ++ s1 :: post)) := by
  refine ⟨(evaluate [] c8graph).1,
    .zeroDivisionError "Division by zero in equation \x27q\x27: 1/x", ?_, ?_, ?_, ?_⟩
  · with_unfolding_all decide
  · with_unfolding_all decide
  · with_unfolding_all decide
  · exact c8_first_failure_no_rollback [] c8graph (evaluate [] c8graph).1
      (.zeroDivisionError "Division by zero in equation \x27q\x27: 1/x")
      (by with_unfolding_all decide)


/-! ## Claim C2 -/

/-- C2 (amended): every failure raised by `evaluate()` comes from a
first failing equation or check step.  For an equation step a
division-by-zero is raised as a distinguishable `ZeroDivisionError`
whose message contains the step name and the raw expression; any other
non-unit failure is wrapped as a `RuntimeError` containing the step name
and the original message; a dimensionality mismatch, however, is
re-raised as a bare `pint.DimensionalityError` whose message names only
units — not the failing step.  For a check step every failure (including
division by zero and unit mismatches) is wrapped as a generic
`RuntimeError` whose message contains the step description — not its
name. -/
theorem c2_error_messages (reg : Reg) (g g1 : Graph) (e : RaisedErr)
    (h : evaluate reg g = (g1, some e)) :
    ∃ pre s post, g.steps = pre ++ s :: post ∧
      ((s.type = .eq ∧
          ((∃ m, e = .zeroDivisionError m ∧ strContains m s.name = true ∧
              strContains m s.exprStr = true) ∨
           (∃ u1 u2, e = .dimensionalityError (pintMsg u1 u2)) ∨
           (∃ e0 m, e = .runtimeError m ∧
              m = "Error evaluating equation \x27" ++ s.name ++ "\x27: " ++ renderEvalErr e0 ∧
              strContains m s.name = true ∧ strContains m (renderEvalErr e0) = true))) ∨
       (s.type = .check ∧
          (∃ e0 m, e = .runtimeError m ∧
             m = "Error evaluating check \x27" ++ s.desc ++ "\x27: " ++ renderEvalErr e0 ∧
             strContains m s.desc = true ∧ strContains m (renderEvalErr e0) = true))) := by
  rcases hr : evalSteps reg g.steps g.params with ⟨a, b, c⟩
  simp only [evaluate, hr, Prod.mk.injEq] at h
  obtain ⟨hg, hc⟩ := h
  obtain ⟨pre, s, post, pre1, s1, h1, h2, h3, h4⟩ :=
    evalSteps_error_split reg g.steps g.params a b e (by rw [hr, hc])
  refine ⟨pre, s, post, h1, ?_⟩
  rcases evalStep_error_shape reg s g1.params s1 g1.params e (by rw [← hg]; exact h3)
    with ⟨hty, e0, he⟩ | ⟨hty, e0, he⟩
  · refine .inl ⟨hty, ?_⟩
    cases e0 with
    | zeroDiv =>
        refine .inl ⟨_, he.trans rfl, ?_, ?_⟩
        · exact strContains_build _ _ "Division by zero in equation \x27".data
            ("\x27: " ++ s.exprStr).data (by simp [string_data_append])
        · exact strContains_build _ _
            ("Division by zero in equation \x27" ++ s.name ++ "\x27: ").data []
            (by simp [string_data_append])
    | dimErr u1 u2 => exact .inr (.inl ⟨u1, u2, he⟩)
    | keyErr m0 =>
        refine .inr (.inr ⟨.keyErr m0, _, he, rfl, ?_, ?_⟩)
        · exact strContains_build _ _ "Error evaluating equation \x27".data
            ("\x27: " ++ renderEvalErr (.keyErr m0)).data (by simp [string_data_append])
        · exact strContains_build _ _
            ("Error evaluating equation \x27" ++ s.name ++ "\x27: ").data []
            (by simp [string_data_append])
    | valErr m0 =>
        refine .inr (.inr ⟨.valErr m0, _, he, rfl, ?_, ?_⟩)
        · exact strContains_build _ _ "Error evaluating equation \x27".data
            ("\x27: " ++ renderEvalErr (.valErr m0)).data (by simp [string_data_append])
        · exact strContains_build _ _
            ("Error evaluating equation \x27" ++ s.name ++ "\x27: ").data []
            (by simp [string_data_append])
    | attrErr m0 =>
        refine .inr (.inr ⟨.attrErr m0, _, he, rfl, ?_, ?_⟩)
        · exact strContains_build _ _ "Error evaluating equation \x27".data
            ("\x27: " ++ renderEvalErr (.attrErr m0)).data (by simp [string_data_append])
        · exact strContains_build _ _
            ("Error evaluating equation \x27" ++ s.name ++ "\x27: ").data []
            (by simp [string_data_append])
    | typeErr m0 =>
        refine .inr (.inr ⟨.typeErr m0, _, he, rfl, ?_, ?_⟩)
        · exact strContains_build _ _ "Error evaluating equation \x27".data
            ("\x27: " ++ renderEvalErr (.typeErr m0)).data (by simp [string_data_append])
        · exact strContains_build _ _
            ("Error evaluating equation \x27" ++ s.name ++ "\x27: ").data []
            (by simp [string_data_append])
  · refine .inr ⟨hty, e0, _, he, rfl, ?_, ?_⟩
    · exact strContains_build _ _ "Error evaluating check \x27".data
        ("\x27: " ++ renderEvalErr e0).data (by simp [string_data_append])
    · exact strContains_build _ _
        ("Error evaluating check \x27" ++ s.desc ++ "\x27: ").data []
        (by simp [string_data_append])

/-- Counterexample to C2 as stated: a dimensionality mismatch in the
step named `badstep` is re-raised with a message that does not mention
the step name. -/
theorem c2_step_name_counterexample :
    (evaluate [] c2dimGraph).2
      = some (.dimensionalityError (pintMsg "centimeter" "second")) ∧
    strContains (pintMsg "centimeter" "second") "badstep" = false := by
  constructor
  · with_unfolding_all decide
  · decide

/-- Witness for the amended C2 at a concrete failing check. -/
theorem c2_error_messages_witness :
    evaluate [] c2checkGraph = ((evaluate [] c2checkGraph).1,
      some (.runtimeError
        "Error evaluating check \x27dw\x27: Variable \x27zz\x27 not found.")) ∧
    (∃ pre s post, c2checkGraph.steps = pre ++ s :: post ∧
      ((s.type = .eq ∧
          ((∃ m, RaisedErr.runtimeError
                "Error evaluating check \x27dw\x27: Variable \x27zz\x27 not found."
                = .zeroDivisionError m ∧ strContains m s.name = true ∧
              strContains m s.exprStr = true) ∨
           (∃ u1 u2, RaisedErr.runtimeError
                "Error evaluating check \x27dw\x27: Variable \x27zz\x27 not found."
                = .dimensionalityError (pintMsg u1 u2)) ∨
           (∃ e0 m, RaisedErr.runtimeError
                "Error evaluating check \x27dw\x27: Variable \x27zz\x27 not found."
                = .runtimeError m ∧
              m = "Error evaluating equation \x27" ++ s.name ++ "\x27: " ++ renderEvalErr e0 ∧
              strContains m s.name = true ∧ strContains m (renderEvalErr e0) = true))) ∨
       (s.type = .check ∧
          (∃ e0 m, RaisedErr.runtimeError
               "Error evaluating check \x27dw\x27: Variable \x27zz\x27 not found."
               = .runtimeError m ∧
             m = "Error evaluating check \x27" ++ s.desc ++ "\x27: " ++ renderEvalErr e0 ∧
             strContains m s.desc = true ∧ strContains m (renderEvalErr e0) = true)))) := by
  refine ⟨by with_unfolding_all decide, ?_⟩
  exact c2_error_messages [] c2checkGraph (evaluate [] c2checkGraph).1
    (.runtimeError "Error evaluating check \x27dw\x27: Variable \x27zz\x27 not found.")
    (by with_unfolding_all decide)


/-! ## Claim C7 -/

/-- C7: for an equation step declaring a target unit, after a successful
raw evaluation the engine converts a dimensioned result to the target
unit — raising a distinguishable dimensionality failure when the
physical dimensions differ — and wraps a bare numeric result as a
quantity tagged with the target unit; the converted or wrapped result is
stored into the symbol table under the step name and cached on the
step. -/
theorem c7_target_unit (reg : Reg) (s : Step) (ps : List (String × PyObj))
    (t : UnitObj) (hty : s.type = .eq) (hu : s.unit = some t) :
    (∀ m u, evaluateRawExpression reg ps (ceOf s) = .ok (.vquant m u) →
       (u.dim = t.dim →
          evalStep reg s ps =
            ({ s with compiled := some (ceOf s), result := some (.vquant (m * u.scale / t.scale) t) },
             updateA ps s.name (.vquant (m * u.scale / t.scale) t), none)) ∧
       (u.dim ≠ t.dim →
          evalStep reg s ps =
            ({ s with compiled := some (ceOf s) }, ps,
             some (.dimensionalityError (pintMsg u.uname t.uname))))) ∧
    (∀ a, evaluateRawExpression reg ps (ceOf s) = .ok (.vnum a) →
       evalStep reg s ps =
         ({ s with compiled := some (ceOf s), result := some (.vquant a t) },
          updateA ps s.name (.vquant a t), none)) := by
  constructor
  · intro m u hraw
    constructor
    · intro hdim
      simp only [evalStep, hty, evalStepEq, hraw, applyTargetUnit, hu, hdim, if_pos]
    · intro hdim
      simp only [evalStep, hty, evalStepEq, hraw, applyTargetUnit, hu, hdim, if_neg]
      rfl
  · intro a hraw
    simp only [evalStep, hty, evalStepEq, hraw, applyTargetUnit, hu]

/-- Witness for C7: 100 centimeters converted to the meter target unit
is stored as 1 meter under the step name. -/
theorem c7_target_unit_witness :
    evaluateRawExpression ([] : Reg) c7ps (ceOf c7step) = .ok (.vquant 100 cmU) ∧
    cmU.dim = meterU.dim ∧
    evalStep ([] : Reg) c7step c7ps =
      ({ c7step with compiled := some (ceOf c7step), result := some (.vquant (100 * cmU.scale / meterU.scale) meterU) },
       updateA c7ps c7step.name (.vquant (100 * cmU.scale / meterU.scale) meterU), none) ∧
    (100 : ℚ) * cmU.scale / meterU.scale = 1 := by
  refine ⟨by with_unfolding_all decide, by decide, ?_, by with_unfolding_all decide⟩
  exact ((c7_target_unit ([] : Reg) c7step c7ps meterU (by decide) (by decide)).1 100 cmU
    (by with_unfolding_all decide)).1 (by decide)


/-! ## Claim C10 -/

/-- C10: with the standard template, `report()` on a graph whose
equation steps have no cached result (no `evaluate()` pass has run) is a
total string computation; the missing result renders as the literal text
`"None"` in the value slot (`_format_value(None)` is `str(None)`), and
the report of any graph with a visible, unevaluated equation step
contains that text. -/
theorem c10_report_before_evaluate (prec : Nat) (g : Graph) :
    (∀ fmt, formatValue prec none fmt = "None") ∧
    (∀ s ∈ g.steps, s.type = .eq → s.result = none → s.hidden = false →
       strContains (renderRow prec g s) "None" = true ∧
       strContains (report prec g) "None" = true) := by
  constructor
  · intro fmt
    rfl
  · intro s hs hty hres hh
    have hrow : strContains (renderRow prec g s) "None" = true := by
      apply strContains_build _ _
        (s.symbol ++ " &= " ++ formatExprL g s.expr ++ " = ").data
        (" && \\text\x7b" ++ s.desc ++ "\x7d \\\\").data
      simp [renderRow, hty, hres, formatValue, string_data_append]
    refine ⟨hrow, ?_⟩
    have hmem := mem_reportLinesAux prec g g.steps none s hs hh
    have hinf := joinLines_infix (renderRow prec g s) (reportLinesAux prec g none g.steps) hmem
    exact (strContains_iff _ _).mpr (((strContains_iff _ _).mp hrow).trans hinf)

/-- Witness for C10 at a concrete two-step graph that was never
evaluated. -/
theorem c10_report_before_evaluate_witness :
    ((∃ s, s ∈ c10graph.steps ∧ s.type = .eq ∧ s.result = none ∧ s.hidden = false) ∧
     strContains (report 2 c10graph) "None" = true) := by
  constructor
  · refine ⟨c10graph.steps.getLast (by with_unfolding_all decide), ?_, ?_, ?_, ?_⟩
    · exact List.getLast_mem _
    · with_unfolding_all decide
    · with_unfolding_all decide
    · with_unfolding_all decide
  · exact ((c10_report_before_evaluate 2 c10graph).2
      (c10graph.steps.getLast (by with_unfolding_all decide))
      (List.getLast_mem _)
      (by with_unfolding_all decide)
      (by with_unfolding_all decide)
      (by with_unfolding_all decide)).2


/-! ## Claim C1 -/

/-- C1 (code bug): on the graph `a = 5`, `b = 2`, `y = a+b`, `z = y*2`
(all declarations succeed), `evaluate()` followed by `get("z")` does
yield `14`; but the callable `lambdify_equation("z")` returns, applied
to `{a: 5, b: 2}`, raises `AttributeError` instead of returning `14`:
with no target unit declared the wrapper unconditionally evaluates
`res.dimensionless`, an attribute a bare `int` result does not have.
The claimed behaviour (`14` from the bulk path, asserted by the spec and
by the repository tests `test_lambdify_simple_param` and
`test_lambdify_dependency_chain`) is what the code intends; the
`.dimensionless` access is the slip. -/
theorem c1_dependency_expansion_code_bug :
    (add_param emptyGraph "a" "a" (.vnum 5) "" false none).2 = none ∧
    (add_param c1g1 "b" "b" (.vnum 2) "" false none).2 = none ∧
    (add_equation c1g2 "y" "y" "a+b" (.add (.var "a") (.var "b")) none "" false none).2 = none ∧
    (add_equation c1g3 "z" "z" "y*2" (.mul (.var "y") (.const 2)) none "" false none).2 = none ∧
    (evaluate [] c1graph).2 = none ∧
    lookupA (evaluate [] c1graph).1.params "z" = some (.vnum 14) ∧
    lambdifyApply [] c1graph "z" c1df
      = .callError (.attrErr "\x27int\x27 object has no attribute \x27dimensionless\x27") := by
  refine ⟨by decide, by decide, by decide, by decide, ?_, ?_, ?_⟩
  · with_unfolding_all decide
  · with_unfolding_all decide
  · with_unfolding_all decide


/-! ## Claim C5 -/

/-- C5 (amended): the Safety Filter, run by `add_equation` and
`add_check` at declaration time, rejects exactly when the name is not a
Python identifier (`str.isidentifier`; the spec notion of a bare
identifier additionally excludes reserved words, which the code does not
— see the counterexample), or the expression contains the two-character
substring `__`, or the expression contains a deny-list keyword as a
whole-word token; a deny-list word occurring only inside a longer word,
as `os` inside `cos`, does not trigger it, and a rejected declaration
leaves the graph untouched. -/
theorem c5_safety_filter (g : Graph) (name symbol exprStr : String) (e : Expr)
    (unit : Option UnitObj) (desc : String) (hidden : Bool) (fmt : Option Nat)
    (cname : String) (cfmt : Option Nat) :
    ((add_equation g name symbol exprStr e unit desc hidden fmt).2 = none ↔
       (isIdentStr name = true ∧ ¬ DunderOccurs exprStr ∧
        ∀ w ∈ forbiddenWords, ¬ WholeWordOccurs w exprStr)) ∧
    ((add_check g exprStr e desc cname cfmt).2 = none ↔
       (isIdentStr cname = true ∧ ¬ DunderOccurs exprStr ∧
        ∀ w ∈ forbiddenWords, ¬ WholeWordOccurs w exprStr)) ∧
    (∀ m, (add_equation g name symbol exprStr e unit desc hidden fmt).2 = some m →
       (add_equation g name symbol exprStr e unit desc hidden fmt).1 = g) ∧
    (∀ m, (add_check g exprStr e desc cname cfmt).2 = some m →
       (add_check g exprStr e desc cname cfmt).1 = g) ∧
    validate_expression "f" "cos(x) + 2" = .ok () := by
  refine ⟨?_, ?_, ?_, ?_, by decide⟩
  · rw [← validate_expression_ok_iff]
    unfold add_equation
    cases hv : validate_expression name exprStr with
    | error msg => simp [hv]
    | ok u => cases u; simp
  · rw [← validate_expression_ok_iff]
    unfold add_check
    cases hv : validate_expression cname exprStr with
    | error msg => simp [hv]
    | ok u => cases u; simp
  · intro m
    unfold add_equation
    cases hv : validate_expression name exprStr with
    | error msg => simp
    | ok u => cases u; simp
  · intro m
    unfold add_check
    cases hv : validate_expression cname exprStr with
    | error msg => simp
    | ok u => cases u; simp

/-- Counterexample to C5 as stated: `"if"` is a reserved word, hence not
a valid bare identifier in the spec sense, yet the filter accepts an
equation declared under that name. -/
theorem c5_reserved_name_counterexample :
    specBareIdentifier "if" = false ∧
    (add_equation emptyGraph "if" "s" "1+1" (.add (.const 1) (.const 1))
      none "" false none).2 = none := by
  constructor
  · decide
  · decide

/-- Witness for the amended C5: a trig-function expression passes, a
whole-word `import` fails and leaves the graph untouched. -/
theorem c5_safety_filter_witness :
    (add_equation emptyGraph "f" "s" "cos(x) + 2" (.var "x") none "" false none).2 = none ∧
    (add_check emptyGraph "import os" (.var "q") "bc" "Check" none).2 ≠ none ∧
    (add_check emptyGraph "import os" (.var "q") "bc" "Check" none).1 = emptyGraph := by
  refine ⟨by decide, by decide, ?_⟩
  exact (c5_safety_filter emptyGraph "f" "s" "import os" (.var "q") none "bc" false none
      "Check" none).2.2.2.1
    "Invalid expression for \x27Check\x27: Expression \x27import os\x27 contains forbidden keywords."
    (by decide)

/-! ## Claim C6 -/

/-- C6 (amended): `add_param` fails with the invalid-name `ValueError`
exactly when the name fails `str.isidentifier` (reserved words such as
`"import"` pass that test and are accepted — see the counterexample),
fails with the invalid-type `TypeError` exactly when the name is fine
but the value is not an `int`, `float`, `pint.Quantity` or
`np.ndarray`; on either failure no step is appended and the symbol
tables are unchanged, and on success exactly one parameter step is
appended. -/
theorem c6_add_param_validation (g : Graph) (name symbol : String) (value : PyObj)
    (desc : String) (hidden : Bool) (fmt : Option Nat) :
    ((∃ m, (add_param g name symbol value desc hidden fmt).2 = some (.valueError m)) ↔
        isIdentStr name = false) ∧
    ((∃ m, (add_param g name symbol value desc hidden fmt).2 = some (.typeError m)) ↔
        (isIdentStr name = true ∧ isAcceptedParamType value = false)) ∧
    (∀ e, (add_param g name symbol value desc hidden fmt).2 = some e →
        (add_param g name symbol value desc hidden fmt).1 = g) ∧
    ((add_param g name symbol value desc hidden fmt).2 = none →
        (add_param g name symbol value desc hidden fmt).1.steps
          = g.steps ++ [{ type := .param, name := name, symbol := symbol, value := some value, exprStr := "", expr := .const 0, unit := none, desc := desc, hidden := hidden, fmt := fmt, compiled := none, result := none }]) := by
  by_cases h1 : isIdentStr name <;> by_cases h2 : isAcceptedParamType value <;>
    simp [add_param, h1, h2]

/-- Counterexample to C6 as stated: the reserved word `"import"` is
accepted as a parameter name. -/
theorem c6_reserved_word_counterexample :
    specBareIdentifier "import" = false ∧
    (add_param emptyGraph "import" "I" (.vnum 1) "" false none).2 = none ∧
    lookupA (add_param emptyGraph "import" "I" (.vnum 1) "" false none).1.params "import"
      = some (.vnum 1) := by
  refine ⟨by decide, by decide, by with_unfolding_all decide⟩

/-- Witness for the amended C6: a string-valued parameter is rejected
with the type error and the graph is unchanged. -/
theorem c6_add_param_validation_witness :
    (∃ m, (add_param emptyGraph "okname" "o" (.vstr "sv") "" false none).2
       = some (.typeError m)) ∧
    (add_param emptyGraph "okname" "o" (.vstr "sv") "" false none).1 = emptyGraph := by
  constructor
  · exact (c6_add_param_validation emptyGraph "okname" "o" (.vstr "sv") "" false none).2.1.mpr
      (by decide)
  · exact (c6_add_param_validation emptyGraph "okname" "o" (.vstr "sv") "" false none).2.2.1
      (.typeError "Value for \x27okname\x27 must be an int, float, pint.Quantity, or np.ndarray. Got str.")
      (by decide)

/-! ## Claim C4 -/

/-- C4 (amended): name uniqueness is not enforced.  Whether a
declaration succeeds never depends on the existing graph (so a second
declaration reusing a Parameter/Equation name succeeds whenever the
first did), and a successful re-declaration overwrites the display
symbol: after any successful `add_param`/`add_equation` for a name, the
symbols table maps that name to the symbol just given. -/
theorem c4_redeclaration_overwrites (g : Graph) (name symbol : String) (value : PyObj)
    (desc : String) (hidden : Bool) (fmt : Option Nat)
    (symbol2 exprStr : String) (e : Expr) (unit : Option UnitObj) :
    ((add_param g name symbol value desc hidden fmt).2 = none →
       lookupA (add_param g name symbol value desc hidden fmt).1.symbols name
         = some symbol) ∧
    ((add_equation g name symbol2 exprStr e unit desc hidden fmt).2 = none →
       lookupA (add_equation g name symbol2 exprStr e unit desc hidden fmt).1.symbols name
         = some symbol2) ∧
    ((add_param g name symbol value desc hidden fmt).2
       = (add_param emptyGraph name symbol value desc hidden fmt).2) ∧
    ((add_equation g name symbol2 exprStr e unit desc hidden fmt).2
       = (add_equation emptyGraph name symbol2 exprStr e unit desc hidden fmt).2) := by
  refine ⟨?_, ?_, ?_, ?_⟩
  · intro h
    by_cases h1 : isIdentStr name <;> by_cases h2 : isAcceptedParamType value <;>
      simp [add_param, h1, h2, lookupA_updateA_self] at h ⊢
  · intro h
    unfold add_equation at h ⊢
    cases hv : validate_expression name exprStr with
    | error msg => rw [hv] at h; simp at h
    | ok u => cases u; simp [lookupA_updateA_self]
  · by_cases h1 : isIdentStr name <;> by_cases h2 : isAcceptedParamType value <;>
      simp [add_param, h1, h2]
  · unfold add_equation
    cases hv : validate_expression name exprStr with
    | error msg => simp
    | ok u => cases u; simp

/-- Counterexample to C4 as stated: redeclaring `dup` succeeds and moves
its display symbol from `x` to `y`. -/
theorem c4_duplicate_names_counterexample :
    (add_param emptyGraph "dup" "x" (.vnum 1) "" false none).2 = none ∧
    lookupA c4g1.symbols "dup" = some "x" ∧
    (add_param c4g1 "dup" "y" (.vnum 2) "" false none).2 = none ∧
    lookupA c4g2.symbols "dup" = some "y" ∧
    c4g2.steps.length = 2 := by
  refine ⟨by decide, by with_unfolding_all decide, by decide,
    by with_unfolding_all decide, by with_unfolding_all decide⟩

/-- Witness for the amended C4 at a concrete redeclaration. -/
theorem c4_redeclaration_overwrites_witness :
    lookupA (add_param c4g1 "dup" "y" (.vnum 2) "" false none).1.symbols "dup"
      = some "y" := by
  exact (c4_redeclaration_overwrites c4g1 "dup" "y" (.vnum 2) "" false none
      "" "" (.const 0) none).1 (by decide)


/-! ## Claim C3 -/

/-- C3 (amended): `lambdify_equation(name)` raises `EquationNotFound`
(`KeyError`) at construction time exactly when `name` is not a declared
Equation step, and its construction outcome never depends on the symbol
table.  Missing-variable failures are raised only at call time of the
returned callable, and every call-time `KeyError` is the bulk-resolution
missing-variable failure naming the equation.  The
unresolvable-dependency (substitution depth bound) failure, however, is
raised during the `lambdify_equation` call itself, wrapped as the
invalid-expression `ValueError` of `_compile_equation` — not at call
time, because dependency expansion runs at construction. -/
theorem c3_construction_vs_call_errors (reg : Reg) (g : Graph) (name : String) :
    ((∃ m, lambdify_equation reg g name = .error (.notFound m)) ↔
       g.steps.find? (fun s => s.type == .eq && s.name == name) = none) ∧
    (∀ step, g.steps.find? (fun s => s.type == .eq && s.name == name) = some step →
       ∀ m0, expandFuel g.steps name 20 step.expr = .error m0 →
         lambdify_equation reg g name = .error (.invalidExpr
           ("Invalid or unsafe expression \x27" ++ step.exprStr ++ "\x27 for \x27"
             ++ name ++ "\x27: " ++ m0))) ∧
    (∀ ps2, constructionResult reg { g with params := ps2 } name
       = constructionResult reg g name) ∧
    (∀ f, lambdify_equation reg g name = .ok f →
       ∀ df m, f df = .error (.keyErr m) →
         strContains m name = true ∧
         strContains m "not found in DataFrame or Builder parameters" = true) := by
  refine ⟨?_, ?_, ?_, ?_⟩
  · cases hf : g.steps.find? (fun s => s.type == .eq && s.name == name) with
    | none => simp [lambdify_equation, hf]
    | some eqStep =>
        simp only [lambdify_equation, hf]
        constructor
        · rintro ⟨m, hm⟩
          cases hc : compile_equation name eqStep.exprStr eqStep.expr g.steps true with
          | error m1 => rw [hc] at hm; simp at hm
          | ok p => rw [hc] at hm; simp at hm
        · intro h
          cases h
  · intro step hstep m0 hexp
    simp [lambdify_equation, hstep, compile_equation, hexp]
  · intro ps2
    unfold constructionResult lambdify_equation
    cases hf : g.steps.find? (fun s => s.type == .eq && s.name == name) with
    | none => simp [hf]
    | some eqStep =>
        simp only [hf]
        cases hc : compile_equation name eqStep.exprStr eqStep.expr g.steps true with
        | error m1 => simp [hc]
        | ok p => simp [hc]
  · intro f hok df m hcall
    simp only [lambdify_equation] at hok
    cases hf : g.steps.find? (fun s => s.type == .eq && s.name == name) with
    | none => simp only [hf] at hok; simp at hok
    | some eqStep =>
        simp only [hf] at hok
        cases hexp : expandFuel g.steps name 20 eqStep.expr with
        | error m0 =>
            have hc : compile_equation name eqStep.exprStr eqStep.expr g.steps true
                = .error ("Invalid or unsafe expression \x27" ++ eqStep.exprStr
                  ++ "\x27 for \x27" ++ name ++ "\x27: " ++ m0) := by
              simp [compile_equation, hexp]
            simp only [hc] at hok
            simp at hok
        | ok e2 =>
            have hc : compile_equation name eqStep.exprStr eqStep.expr g.steps true
                = .ok (e2, argsNames e2) := by
              simp [compile_equation, hexp]
            simp only [hc, Except.ok.injEq] at hok
            rw [← hok] at hcall
            simp only [bind, Except.bind] at hcall
            cases hres : resolveArgs (wrapperArg reg g name df) (argsNames e2) with
            | error err =>
                rw [hres] at hcall
                have h3 : (Except.error err : Except EvalErr PyObj)
                    = .error (.keyErr m) := hcall
                injection h3 with he
                subst he
                obtain ⟨a, ha, hwarg⟩ :=
                  resolveArgs_error_source (wrapperArg reg g name df) (argsNames e2)
                    (.keyErr m) hres
                have hm := wrapperArg_keyErr_shape reg g name df a m hwarg
                subst hm
                constructor
                · exact strContains_build _ _
                    ("Variable \x27" ++ a ++ "\x27 required for equation \x27").data
                    "\x27 not found in DataFrame or Builder parameters.".data
                    (by simp [string_data_append])
                · exact strContains_append_right _ _ _ (by decide)
            | ok resolved =>
                rw [hres] at hcall
                simp only [bind, Except.bind] at hcall
                cases hrun : runCompiled e2 resolved with
                | error err =>
                    rw [hrun] at hcall
                    have h3 : (Except.error err : Except EvalErr PyObj)
                        = .error (.keyErr m) := hcall
                    injection h3 with he
                    subst he
                    exfalso
                    refine evalExpr_not_keyErr _ e2 ?_ m hrun
                    intro v hv m2 henvv
                    obtain ⟨w, hw⟩ := resolveArgs_ok_lookup (wrapperArg reg g name df)
                      (argsNames e2) resolved hres v ((mem_argsNames v e2).mpr hv)
                    rw [hw] at henvv
                    cases henvv
                | ok res =>
                    rw [hrun] at hcall
                    exact absurd hcall (lamPostprocess_not_keyErr _ _ _)

/-- Counterexample to C3 as stated: for the self-referential equation
`ww = ww+1` the depth-bound failure surfaces during the
`lambdify_equation` call itself (as a construction error), not at call
time of a returned callable. -/
theorem c3_depth_at_construction_counterexample :
    lambdifyApply [] c3cyc "ww" []
      = .constructionError (.invalidExpr
          "Invalid or unsafe expression \x27ww+1\x27 for \x27ww\x27: Max recursion depth reached while expanding equation \x27ww\x27. Possible cycle.") := by
  with_unfolding_all decide

/-- Witness for the amended C3: the depth failure of the cyclic graph is
produced at construction with the wrapped message, a lookup of an
undeclared equation reports `EquationNotFound`, and the missing-variable
failure of `c3miss` appears only when the returned callable runs. -/
theorem c3_construction_vs_call_errors_witness :
    (g : Graph) → g = c3cyc →
    lambdify_equation ([] : Reg) c3cyc "ww" = .error (.invalidExpr
      ("Invalid or unsafe expression \x27ww+1\x27 for \x27ww\x27: "
        ++ "Max recursion depth reached while expanding equation \x27ww\x27. Possible cycle.")) ∧
    (∃ m, lambdify_equation ([] : Reg) c3miss "nothere" = .error (.notFound m)) ∧
    lambdifyApply ([] : Reg) c3miss "only" []
      = .callError (.keyErr
          "Variable \x27x\x27 required for equation \x27only\x27 not found in DataFrame or Builder parameters.") := by
  intro g hg
  refine ⟨?_, ?_, ?_⟩
  · exact (c3_construction_vs_call_errors ([] : Reg) c3cyc "ww").2.1 c3cycStep
      (by with_unfolding_all decide)
      "Max recursion depth reached while expanding equation \x27ww\x27. Possible cycle."
      (by with_unfolding_all decide)
  · exact ((c3_construction_vs_call_errors ([] : Reg) c3miss "nothere").1).mpr
      (by with_unfolding_all decide)
  · with_unfolding_all decide


/-! ## Claim C9 -/

/-- C9 (amended): when the equation names are pairwise distinct and
every equation/check reads only parameters and strictly earlier
equations (the declaration discipline the spec prescribes), a second
`evaluate()` after a successful pass, with no intervening mutation,
succeeds and returns the graph unchanged — same symbol table, and every
step with the same cached result and the same compiled artifact (filled
during the first pass and reused). -/
theorem c9_idempotent_reevaluation (reg : Reg) (g g1 : Graph)
    (hnodup : (eqNames g.steps).Nodup) (hreads : readsOk g.steps = true)
    (h : evaluate reg g = (g1, none)) : evaluate reg g1 = (g1, none) := by
  rcases hr : evalSteps reg g.steps g.params with ⟨a, b, c⟩
  simp only [evaluate, hr, Prod.mk.injEq] at h
  obtain ⟨hg, hc⟩ := h
  subst hc
  have hres := evalSteps_idempotent reg g.steps g.params a b hnodup hreads hr
  rw [← hg]
  simp only [evaluate, hres]

/-- Counterexample to C9 as stated: with parameter `x = 1` overwritten
by the self-reading equation `x = x+1` (a graph the API accepts), the
first pass stores `x = 2` but the second stores `x = 3`. -/
theorem c9_self_overwrite_counterexample :
    (add_param emptyGraph "x" "x" (.vnum 1) "" false none).2 = none ∧
    (add_equation c9b1 "x" "x" "x+1" (.add (.var "x") (.const 1)) none "" false none).2 = none ∧
    (evaluate [] c9bad).2 = none ∧
    lookupA (evaluate [] c9bad).1.params "x" = some (.vnum 2) ∧
    (evaluate [] (evaluate [] c9bad).1).2 = none ∧
    lookupA (evaluate [] (evaluate [] c9bad).1).1.params "x" = some (.vnum 3) := by
  refine ⟨by decide, by decide, ?_, ?_, ?_, ?_⟩ <;> with_unfolding_all decide

/-- Witness for the amended C9: a well-ordered graph with two equations
and a check evaluates to a fixed point. -/
theorem c9_idempotent_reevaluation_witness :
    (eqNames c9good.steps).Nodup ∧ readsOk c9good.steps = true ∧
    evaluate ([] : Reg) c9good = ((evaluate ([] : Reg) c9good).1, none) ∧
    evaluate ([] : Reg) (evaluate ([] : Reg) c9good).1
      = ((evaluate ([] : Reg) c9good).1, none) := by
  refine ⟨by with_unfolding_all decide, by with_unfolding_all decide,
    by with_unfolding_all decide, ?_⟩
  exact c9_idempotent_reevaluation ([] : Reg) c9good (evaluate ([] : Reg) c9good).1
    (by with_unfolding_all decide) (by with_unfolding_all decide)
    (by with_unfolding_all decide)

end SFB
